import Mathlib

/-!
# Rellume: flag computation and SSE lifters

A shallow embedding of `src/src/lifter-flags.cc` and `src/src/llinstruction-sse.cc`.

IR values are represented by what they evaluate to: an `iN` value is the natural number
below `2 ^ N` holding its bit pattern, an `i1` value is a `Bool`.  Every IR-builder call of
the source is kept as a call of a function with the builder's name whose body is the LLVM
semantics of the instruction it emits.  The width that the C++ code obtains from
`res->getType()` is passed as the explicit argument `ty`.
-/

namespace Rellume

/-! ## Semantics of the IR-builder calls used by the flag code -/

/-- Two's complement reading of the `w`-bit pattern `x`. -/
def toSigned (w x : Nat) : Int :=
  if x % 2 ^ w < 2 ^ (w - 1) then ((x % 2 ^ w : Nat) : Int) else ((x % 2 ^ w : Nat) : Int) - 2 ^ w

/-- The IR `xor` of two integers of one width. -/
def CreateXor (a b : Nat) : Nat := a ^^^ b

/-- The IR `and` of two integers of one width. -/
def CreateAnd (a b : Nat) : Nat := a &&& b

/-- The IR `or` of two integers of one width. -/
def CreateOr (a b : Nat) : Nat := a ||| b

/-- The builder emits `not` as `xor` with the all-ones constant of the type. -/
def CreateNot (ty a : Nat) : Nat := a ^^^ (2 ^ ty - 1)

/-- The builder's `not` on an `i1`. -/
def CreateNot1 (b : Bool) : Bool := !b

/-- The IR `or` of two `i1` values. -/
def CreateOr1 (a b : Bool) : Bool := a || b

/-- The IR `icmp ne` of two `i1` values. -/
def CreateICmpNE1 (a b : Bool) : Bool := a != b

/-- The IR `icmp ne` of two integers of one width. -/
def CreateICmpNE (a b : Nat) : Bool := a != b

/-- The IR `icmp slt` of two integers of width `ty`. -/
def CreateICmpSLT (ty a b : Nat) : Bool := decide (toSigned ty a < toSigned ty b)

/-- The IR `shl` at width `ty`: bits shifted past the width are lost. -/
def CreateShl (ty a k : Nat) : Nat := (a <<< k) % 2 ^ ty

/-- The IR `zext` of an `i1`. -/
def CreateZExt (b : Bool) : Nat := b.toNat

/-- The IR `trunc` to `iN` (a bit cast when the widths agree). -/
def CreateTruncOrBitCast (v size : Nat) : Nat := v % 2 ^ size

/-- The IR `trunc` to `i1`. -/
def CreateTruncOrBitCast1 (v : Nat) : Bool := v % 2 == 1

/-- The constant `i64` with the given value. -/
def getInt64 (v : Nat) : Nat := v % 2 ^ 64

/-- The `llvm.ctpop` intrinsic at width `ty`: the number of set bits. -/
def ctpop (ty x : Nat) : Nat := ((List.range ty).filter fun i => x.testBit i).length

/-- The `llvm.sadd.with.overflow` intrinsic at width `ty`: the wrapped sum, and whether
the sum of the signed readings is not representable. -/
def sadd_with_overflow (ty lhs rhs : Nat) : Nat × Bool :=
  ((lhs + rhs) % 2 ^ ty,
   decide (toSigned ty lhs + toSigned ty rhs < -(2 ^ (ty - 1) : Int) ∨
           (2 ^ (ty - 1) : Int) ≤ toSigned ty lhs + toSigned ty rhs))

/-- The `llvm.ssub.with.overflow` intrinsic at width `ty`: the wrapped difference, and
whether the difference of the signed readings is not representable. -/
def ssub_with_overflow (ty lhs rhs : Nat) : Nat × Bool :=
  ((lhs + (2 ^ ty - rhs % 2 ^ ty)) % 2 ^ ty,
   decide (toSigned ty lhs - toSigned ty rhs < -(2 ^ (ty - 1) : Int) ∨
           (2 ^ (ty - 1) : Int) ≤ toSigned ty lhs - toSigned ty rhs))

/-- The builder's `extractvalue packed, 1`. -/
def CreateExtractValue1 (packed : Nat × Bool) : Bool := packed.2

/-! ## The lifter's flag state -/

/-- The six status flags kept by the register file. -/
inductive RFlag where
  | RFLAG_ZF | RFLAG_SF | RFLAG_PF | RFLAG_CF | RFLAG_OF | RFLAG_AF
  deriving DecidableEq, Repr

open RFlag

/-- The configuration toggles read by the code. -/
structure LLConfig where
  enableOverflowIntrinsics : Bool
  enableFastMath : Bool
  deriving DecidableEq, Repr

/-- The flag slots of the register file, one boolean each. -/
structure FlagFile where
  zf : Bool
  sf : Bool
  pf : Bool
  cf : Bool
  of : Bool
  af : Bool
  deriving DecidableEq, Repr

/-- The part of `LifterBase` that the flag code reads and writes. -/
structure LifterBase where
  cfg : LLConfig
  regfile : FlagFile
  deriving DecidableEq, Repr

/-- Modelled from the spec: `GetFlag` of lifter.h, which is not among the sources; the
register file holds each flag as an individual boolean and `GetFlag` reads it. -/
def LifterBase.GetFlag (self : LifterBase) : RFlag → Bool
  | RFLAG_ZF => self.regfile.zf
  | RFLAG_SF => self.regfile.sf
  | RFLAG_PF => self.regfile.pf
  | RFLAG_CF => self.regfile.cf
  | RFLAG_OF => self.regfile.of
  | RFLAG_AF => self.regfile.af

/-- Modelled from the spec: `SetFlag` of lifter.h, which is not among the sources; it
writes one flag slot and leaves the others as they are. -/
def LifterBase.SetFlag (self : LifterBase) (flag : RFlag) (v : Bool) : LifterBase :=
  match flag with
  | RFLAG_ZF => { self with regfile := { self.regfile with zf := v } }
  | RFLAG_SF => { self with regfile := { self.regfile with sf := v } }
  | RFLAG_PF => { self with regfile := { self.regfile with pf := v } }
  | RFLAG_CF => { self with regfile := { self.regfile with cf := v } }
  | RFLAG_OF => { self with regfile := { self.regfile with of := v } }
  | RFLAG_AF => { self with regfile := { self.regfile with af := v } }

/-! ## Condition codes -/

/-- Modelled from the spec: the `Condition` enumeration of rellume/instr.h, which is not
among the sources.  The eight base predicates are the even codes, in the order the spec
lists them, and the lowest bit of a code selects the negation. -/
def Condition.O : Nat := 0

/-- Modelled from the spec: `Condition::C`, the second base predicate. -/
def Condition.C : Nat := 2

/-- Modelled from the spec: `Condition::Z`, the third base predicate. -/
def Condition.Z : Nat := 4

/-- Modelled from the spec: `Condition::BE`, the fourth base predicate. -/
def Condition.BE : Nat := 6

/-- Modelled from the spec: `Condition::S`, the fifth base predicate. -/
def Condition.S : Nat := 8

/-- Modelled from the spec: `Condition::P`, the sixth base predicate. -/
def Condition.P : Nat := 10

/-- Modelled from the spec: `Condition::L`, the seventh base predicate. -/
def Condition.L : Nat := 12

/-- Modelled from the spec: `Condition::LE`, the eighth base predicate. -/
def Condition.LE : Nat := 14

/-- The C expression `static_cast<int>(cond) & ~1` on a 32-bit `int`. -/
def clearLowBit (cond : Nat) : Nat := cond &&& (2 ^ 32 - 1 - 1)

/-- The switch of `FlagCond`; `none` is the `default: assert(0)` branch. -/
def FlagCond.base (self : LifterBase) (c : Nat) : Option Bool :=
  if c = Condition.O then some (self.GetFlag RFLAG_OF)
  else if c = Condition.C then some (self.GetFlag RFLAG_CF)
  else if c = Condition.Z then some (self.GetFlag RFLAG_ZF)
  else if c = Condition.BE then some (CreateOr1 (self.GetFlag RFLAG_CF) (self.GetFlag RFLAG_ZF))
  else if c = Condition.S then some (self.GetFlag RFLAG_SF)
  else if c = Condition.P then some (self.GetFlag RFLAG_PF)
  else if c = Condition.L then
    some (CreateICmpNE1 (self.GetFlag RFLAG_SF) (self.GetFlag RFLAG_OF))
  else if c = Condition.LE then
    some (CreateOr1 (self.GetFlag RFLAG_ZF)
      (CreateICmpNE1 (self.GetFlag RFLAG_SF) (self.GetFlag RFLAG_OF)))
  else none

/-- The function `LifterBase::FlagCond`: the base predicate of the code with its low bit
cleared, negated when the low bit is set. -/
def LifterBase.FlagCond (self : LifterBase) (cond : Nat) : Option Bool :=
  match FlagCond.base self (clearLowBit cond) with
  | none => none
  | some result => some (if cond &&& 1 ≠ 0 then CreateNot1 result else result)

/-! ## Packed flags -/

/-- The table `flags` of `FlagAsReg`: each flag with its bit offset. -/
def FlagAsReg.flags : List (RFlag × Nat) :=
  [(RFLAG_CF, 0), (RFLAG_PF, 2), (RFLAG_AF, 4), (RFLAG_ZF, 6), (RFLAG_SF, 7), (RFLAG_OF, 11)]

/-- The function `LifterBase::FlagAsReg`: starts from the constant `0x202`, ors in every
flag of the table at its offset, and truncates to `size` bits. -/
def LifterBase.FlagAsReg (self : LifterBase) (size : Nat) : Nat :=
  let res := getInt64 0x202
  let res := FlagAsReg.flags.foldl
    (fun res kv => CreateOr res (CreateShl 64 (CreateZExt (self.GetFlag kv.1)) kv.2)) res
  CreateTruncOrBitCast res size

/-! ## Flag computation -/

/-- The function `LifterBase::FlagCalcP`. -/
def LifterBase.FlagCalcP (self : LifterBase) (value : Nat) : LifterBase :=
  let trunc := CreateTruncOrBitCast value 8
  let count := ctpop 8 trunc
  let bit := CreateTruncOrBitCast1 count
  self.SetFlag RFLAG_PF (CreateNot1 bit)

/-- The function `LifterBase::FlagCalcA`. -/
def LifterBase.FlagCalcA (self : LifterBase) (res lhs rhs : Nat) : LifterBase :=
  let tmp := CreateXor (CreateXor lhs rhs) res
  let masked := CreateAnd tmp 16
  self.SetFlag RFLAG_AF (CreateICmpNE masked 0)

/-- The function `LifterBase::FlagCalcOAdd`; `ty` is the width of `res->getType()`. -/
def LifterBase.FlagCalcOAdd (self : LifterBase) (ty res lhs rhs : Nat) : LifterBase :=
  if self.cfg.enableOverflowIntrinsics then
    let packed := sadd_with_overflow ty lhs rhs
    self.SetFlag RFLAG_OF (CreateExtractValue1 packed)
  else
    let tmp1 := CreateNot ty (CreateXor lhs rhs)
    let tmp2 := CreateAnd tmp1 (CreateXor res lhs)
    self.SetFlag RFLAG_OF (CreateICmpSLT ty tmp2 0)

/-- The function `LifterBase::FlagCalcOSub`; `ty` is the width of `res->getType()`. -/
def LifterBase.FlagCalcOSub (self : LifterBase) (ty res lhs rhs : Nat) : LifterBase :=
  if self.cfg.enableOverflowIntrinsics then
    let packed := ssub_with_overflow ty lhs rhs
    self.SetFlag RFLAG_OF (CreateExtractValue1 packed)
  else
    let zeroC := 0
    let sf := CreateICmpSLT ty res zeroC
    let lt := CreateICmpSLT ty lhs rhs
    self.SetFlag RFLAG_OF (CreateICmpNE1 sf lt)

/-- The lifter with the overflow-intrinsics toggle set to `b`. -/
def LifterBase.withIntrinsics (self : LifterBase) (b : Bool) : LifterBase :=
  { self with cfg := { self.cfg with enableOverflowIntrinsics := b } }

/-- A lifter state used to evaluate the flag functions on concrete inputs: every flag
clear, both toggles off. -/
def LifterBase.clear : LifterBase :=
  { cfg := { enableOverflowIntrinsics := false, enableFastMath := false },
    regfile := { zf := false, sf := false, pf := false, cf := false, of := false, af := false } }

/-! ## Decoded instructions (`src/include/llinstr.h`) -/

/-- Modelled from the spec: the enumeration `LLInstrType`, whose members come from
opcodes.inc, which is not among the sources.  It is a closed enumeration of instruction
forms; listed are `None`, `Invalid`, the forms the SSE lifters and their callers name, and
one constructor for every remaining form. -/
inductive LLInstrType where
  | LL_INS_None | LL_INS_Invalid
  | LL_INS_MOVD | LL_INS_MOVQ | LL_INS_MOVSS | LL_INS_MOVSD
  | LL_INS_MOVAPS | LL_INS_MOVAPD | LL_INS_MOVUPS | LL_INS_MOVUPD
  | LL_INS_MOVDQA | LL_INS_MOVDQU
  | LL_INS_MOVLPS | LL_INS_MOVLPD | LL_INS_MOVHPS | LL_INS_MOVHPD
  | LL_INS_UNPCKLPS | LL_INS_UNPCKLPD | LL_INS_UNPCKHPS | LL_INS_UNPCKHPD
  | LL_INS_SHUFPS | LL_INS_INSERTPS
  | LL_INS_Other (code : Nat)
  deriving DecidableEq, Repr

open LLInstrType

/-- Register class `LL_RT_None`. -/
def LL_RT_None : Nat := 0

/-- Register class `LL_RT_GP8Leg`. -/
def LL_RT_GP8Leg : Nat := 1

/-- Register class `LL_RT_GP8`. -/
def LL_RT_GP8 : Nat := 2

/-- Register class `LL_RT_GP16`. -/
def LL_RT_GP16 : Nat := 3

/-- Register class `LL_RT_GP32`. -/
def LL_RT_GP32 : Nat := 4

/-- Register class `LL_RT_GP64`. -/
def LL_RT_GP64 : Nat := 5

/-- Register class `LL_RT_IP`. -/
def LL_RT_IP : Nat := 6

/-- Register class `LL_RT_X87`. -/
def LL_RT_X87 : Nat := 7

/-- Register class `LL_RT_MMX`. -/
def LL_RT_MMX : Nat := 8

/-- Register class `LL_RT_XMM`. -/
def LL_RT_XMM : Nat := 9

/-- Register class `LL_RT_YMM`. -/
def LL_RT_YMM : Nat := 10

/-- Register class `LL_RT_ZMM`. -/
def LL_RT_ZMM : Nat := 11

/-- Register class `LL_RT_SEG`. -/
def LL_RT_SEG : Nat := 12

/-- The struct `LLReg`: a register class and an index within it. -/
structure LLReg where
  rt : Nat
  ri : Nat
  deriving DecidableEq, Repr

/-- Operand kind `LL_OP_NONE`. -/
def LL_OP_NONE : Int := 0

/-- Operand kind `LL_OP_REG`. -/
def LL_OP_REG : Int := 1

/-- Operand kind `LL_OP_IMM`. -/
def LL_OP_IMM : Int := 2

/-- Operand kind `LL_OP_MEM`. -/
def LL_OP_MEM : Int := 3

/-- The struct `LLInstrOp`. -/
structure LLInstrOp where
  val : Nat
  type : Int
  reg : LLReg
  ireg : LLReg
  scale : Int
  seg : Int
  size : Int
  deriving DecidableEq, Repr

/-- The struct `LLInstr`. -/
structure LLInstr where
  type : LLInstrType
  operand_count : Int
  operand_size : Int
  address_size : Int
  dst : LLInstrOp
  src : LLInstrOp
  src2 : LLInstrOp
  addr : Nat
  len : Int
  deriving DecidableEq, Repr

/-! ## The operand access layer, as the lifters see it -/

/-- Modelled from the spec: the enumeration `OperandDataType` of lloperand-internal.h,
which is not among the sources; the scalar-integer, scalar-float and vector-of-lanes
interpretations that the lifters name. -/
inductive OperandDataType where
  | OP_SI32 | OP_SI64 | OP_VI64
  | OP_SF32 | OP_SF64
  | OP_VF32 | OP_VF64
  | OP_V2F32 | OP_V4F32 | OP_V1F64
  deriving DecidableEq, Repr

/-- Modelled from the spec: the enumeration `Alignment` of lloperand-internal.h, which is
not among the sources; `ALIGN_MAXIMUM` is alignment to the full operand width, the others
are literal byte alignments. -/
inductive Alignment where
  | ALIGN_MAXIMUM | ALIGN_1 | ALIGN_8
  deriving DecidableEq, Repr

/-- Modelled from the spec: the enumeration `PartialRegisterHandling` of
lloperand-internal.h, which is not among the sources; the three write policies Default,
ZeroUpperOnVectorWrite and KeepUpperOnVectorWrite. -/
inductive PartialRegisterHandling where
  | REG_DEFAULT | REG_ZERO_UPPER_SSE | REG_KEEP_UPPER
  deriving DecidableEq, Repr

open OperandDataType Alignment PartialRegisterHandling

/-- An IR value moved by the SSE lifters: the bit patterns of its lanes, lowest lane
first, each `laneBits` wide.  A scalar has one lane. -/
structure Value where
  laneBits : Nat
  lanes : List Nat
  deriving DecidableEq, Repr

/-- The bit pattern of a value: its lanes laid out from bit 0 upwards. -/
def Value.bits (v : Value) : Nat :=
  v.lanes.foldr (fun x acc => x % 2 ^ v.laneBits + 2 ^ v.laneBits * acc) 0

/-- The number of bits of a value. -/
def Value.width (v : Value) : Nat := v.laneBits * v.lanes.length

/-- The value with `count` lanes of `laneBits` bits cut out of the pattern `bits`. -/
def Value.ofBits (laneBits count bits : Nat) : Value :=
  { laneBits := laneBits,
    lanes := (List.range count).map fun i => bits / 2 ^ (laneBits * i) % 2 ^ laneBits }

/-- The IR `shufflevector`: lane `i` of the result is lane `mask[i]` of the two operands
laid end to end (the lanes of `v1` first).  An index past both operands selects an
undefined lane, represented by zero. -/
def CreateShuffleVector (v1 v2 : Value) (mask : List Nat) : Value :=
  { laneBits := v1.laneBits, lanes := mask.map fun k => (v1.lanes ++ v2.lanes).getD k 0 }

/-- The IR `extractelement`: the scalar in lane `idx`; a lane past the end is undefined,
represented by zero. -/
def CreateExtractElement (v : Value) (idx : Nat) : Value :=
  { laneBits := v.laneBits, lanes := [v.lanes.getD idx 0] }

/-- The IR `insertelement`: the vector `v` with lane `idx` replaced by the scalar `s`. -/
def CreateInsertElement (v s : Value) (idx : Nat) : Value :=
  { laneBits := v.laneBits, lanes := v.lanes.set idx (s.lanes.getD 0 0) }

/-- The constant `getNullValue` of the type of `v`: every lane zero. -/
def getNullValue (v : Value) : Value :=
  { laneBits := v.laneBits, lanes := v.lanes.map fun _ => 0 }

/-- The constant `LLVMGetUndef` of the type of `v`.  Its lanes are unspecified; they are
represented by zero. -/
def LLVMGetUndef (v : Value) : Value :=
  { laneBits := v.laneBits, lanes := v.lanes.map fun _ => 0 }

/-- The two entry points of the operand access layer, `ll_operand_load` and
`ll_operand_store` of lloperand-internal.h, which are not among the sources.  The lifters
are written against this interface; `σ` is the lifting state. -/
structure OperandAccess (σ : Type) where
  ll_operand_load : OperandDataType → Alignment → LLInstrOp → σ → Value
  ll_operand_store :
    OperandDataType → Alignment → LLInstrOp → PartialRegisterHandling → Value → σ → σ

/-- Modelled from the spec: the helper `regIsV` of the register headers, which are not
among the sources; a register is a vector register when its class is one of the
128/256/512-bit vector classes. -/
def regIsV (reg : LLReg) : Bool :=
  reg.rt == LL_RT_XMM || reg.rt == LL_RT_YMM || reg.rt == LL_RT_ZMM

/-! ## The SSE move lifters (`src/src/llinstruction-sse.cc`)

Each lifter takes the instruction record and the state and returns both, since some
lifters write to fields of the record. -/

/-- The function `ll_instruction_movq`. -/
def ll_instruction_movq {σ : Type} (A : OperandAccess σ) (instr : LLInstr) (state : σ) :
    LLInstr × σ :=
  let type := if instr.type = LL_INS_MOVQ then OP_SI64 else OP_SI32
  let operand1 := A.ll_operand_load type ALIGN_MAXIMUM instr.src state
  if instr.dst.type = LL_OP_REG ∧ regIsV instr.dst.reg = true then
    (instr, A.ll_operand_store type ALIGN_MAXIMUM instr.dst REG_ZERO_UPPER_SSE operand1 state)
  else
    (instr, A.ll_operand_store type ALIGN_MAXIMUM instr.dst REG_DEFAULT operand1 state)

/-- The function `ll_instruction_movs`. -/
def ll_instruction_movs {σ : Type} (A : OperandAccess σ) (instr : LLInstr) (state : σ) :
    LLInstr × σ :=
  let type := if instr.type = LL_INS_MOVSS then OP_SF32 else OP_SF64
  let operand1 := A.ll_operand_load type ALIGN_MAXIMUM instr.src state
  if instr.src.type = LL_OP_MEM then
    (instr, A.ll_operand_store type ALIGN_MAXIMUM instr.dst REG_ZERO_UPPER_SSE operand1 state)
  else
    (instr, A.ll_operand_store type ALIGN_MAXIMUM instr.dst REG_KEEP_UPPER operand1 state)

/-- The function `ll_instruction_movp`. -/
def ll_instruction_movp {σ : Type} (A : OperandAccess σ) (instr : LLInstr) (state : σ) :
    LLInstr × σ :=
  let alignment :=
    if instr.type = LL_INS_MOVAPS ∨ instr.type = LL_INS_MOVAPD then ALIGN_MAXIMUM else ALIGN_8
  let type := if instr.type = LL_INS_MOVAPS ∨ instr.type = LL_INS_MOVUPS then OP_VF32 else OP_VF64
  let operand1 := A.ll_operand_load type alignment instr.src state
  (instr, A.ll_operand_store type alignment instr.dst REG_KEEP_UPPER operand1 state)

/-- The function `ll_instruction_movdq`. -/
def ll_instruction_movdq {σ : Type} (A : OperandAccess σ) (instr : LLInstr) (state : σ) :
    LLInstr × σ :=
  let alignment := if instr.type = LL_INS_MOVDQA then ALIGN_MAXIMUM else ALIGN_8
  let operand1 := A.ll_operand_load OP_VI64 alignment instr.src state
  (instr, A.ll_operand_store OP_VI64 alignment instr.dst REG_KEEP_UPPER operand1 state)

/-- The function `ll_instruction_movlp`.  The call `warn_if_reached()` of the
register-to-register branch only reports the unexpected opcode and is left out. -/
def ll_instruction_movlp {σ : Type} (A : OperandAccess σ) (instr : LLInstr) (state : σ) :
    LLInstr × σ :=
  if instr.dst.type = LL_OP_REG ∧ instr.src.type = LL_OP_REG then
    let operand1 := A.ll_operand_load OP_V4F32 ALIGN_MAXIMUM instr.dst state
    let operand2 := A.ll_operand_load OP_V4F32 ALIGN_MAXIMUM instr.src state
    let result := CreateShuffleVector operand1 operand2 [6, 7, 2, 3]
    (instr, A.ll_operand_store OP_VF32 ALIGN_MAXIMUM instr.dst REG_KEEP_UPPER result state)
  else
    let type := if instr.type = LL_INS_MOVLPS then OP_V2F32 else OP_V1F64
    let operand1 := A.ll_operand_load type ALIGN_MAXIMUM instr.src state
    (instr, A.ll_operand_store type ALIGN_MAXIMUM instr.dst REG_KEEP_UPPER operand1 state)

/-- The function `ll_instruction_movhps`. -/
def ll_instruction_movhps {σ : Type} (A : OperandAccess σ) (instr : LLInstr) (state : σ) :
    LLInstr × σ :=
  if instr.dst.type = LL_OP_REG then
    let instr := { instr with dst := { instr.dst with size := 16 } }
    let instr :=
      { instr with dst := { instr.dst with reg := { instr.dst.reg with rt := LL_RT_XMM } } }
    let instr := { instr with src := { instr.src with size := 16 } }
    let mask := [0, 1, 4, 5]
    let operand1 := A.ll_operand_load OP_VF32 ALIGN_MAXIMUM instr.dst state
    let operand2 := A.ll_operand_load OP_VF32 ALIGN_1 instr.src state
    let result := CreateShuffleVector operand1 operand2 mask
    (instr, A.ll_operand_store OP_VF32 ALIGN_MAXIMUM instr.dst REG_KEEP_UPPER result state)
  else
    let instr := { instr with dst := { instr.dst with size := 8 } }
    let mask := [2, 3]
    let operand1 := A.ll_operand_load OP_VF32 ALIGN_MAXIMUM instr.src state
    let result := CreateShuffleVector operand1 (LLVMGetUndef operand1) mask
    (instr, A.ll_operand_store OP_VF32 ALIGN_MAXIMUM instr.dst REG_KEEP_UPPER result state)

/-- The function `ll_instruction_movhpd`. -/
def ll_instruction_movhpd {σ : Type} (A : OperandAccess σ) (instr : LLInstr) (state : σ) :
    LLInstr × σ :=
  if instr.dst.type = LL_OP_REG then
    let instr := { instr with dst := { instr.dst with size := 16 } }
    let instr :=
      { instr with dst := { instr.dst with reg := { instr.dst.reg with rt := LL_RT_XMM } } }
    let operand1 := A.ll_operand_load OP_VF64 ALIGN_MAXIMUM instr.dst state
    let operand2 := A.ll_operand_load OP_SF64 ALIGN_MAXIMUM instr.src state
    let result := CreateInsertElement operand1 operand2 1
    (instr, A.ll_operand_store OP_VF64 ALIGN_MAXIMUM instr.dst REG_KEEP_UPPER result state)
  else
    let instr := { instr with dst := { instr.dst with size := 16 } }
    let operand1 := A.ll_operand_load OP_VF64 ALIGN_MAXIMUM instr.src state
    let result := CreateExtractElement operand1 1
    (instr, A.ll_operand_store OP_SF64 ALIGN_MAXIMUM instr.dst REG_KEEP_UPPER result state)

/-- The function `ll_instruction_sse_binary`.  The configuration read through
`state->cfg`, the builder call `LLVMBuildBinOp` (a floating-point operation chosen by
`opcode`) and `ll_support_enable_fast_math` are parameters. -/
def ll_instruction_sse_binary {σ : Type} (A : OperandAccess σ) (cfg : σ → LLConfig)
    (LLVMBuildBinOp : Nat → Value → Value → Value)
    (ll_support_enable_fast_math : Value → Value)
    (instr : LLInstr) (state : σ) (opcode : Nat) (fast_math : Bool)
    (data_type : OperandDataType) : LLInstr × σ :=
  let operand1 := A.ll_operand_load data_type ALIGN_MAXIMUM instr.dst state
  let operand2 := A.ll_operand_load data_type ALIGN_MAXIMUM instr.src state
  let result := LLVMBuildBinOp opcode operand1 operand2
  let result :=
    if fast_math = true ∧ (cfg state).enableFastMath = true then
      ll_support_enable_fast_math result
    else result
  (instr, A.ll_operand_store data_type ALIGN_MAXIMUM instr.dst REG_KEEP_UPPER result state)

/-- The shuffle chosen by the opcode in `ll_instruction_unpck`; `none` is the `NULL` that
`result` keeps when the opcode is none of the four unpack forms. -/
def ll_instruction_unpck.result (type : LLInstrType) (operand1 operand2 : Value) :
    Option Value :=
  if type = LL_INS_UNPCKLPS then some (CreateShuffleVector operand1 operand2 [0, 4, 1, 5])
  else if type = LL_INS_UNPCKLPD then some (CreateShuffleVector operand1 operand2 [0, 2])
  else if type = LL_INS_UNPCKHPS then some (CreateShuffleVector operand1 operand2 [2, 6, 3, 7])
  else if type = LL_INS_UNPCKHPD then some (CreateShuffleVector operand1 operand2 [1, 3])
  else none

/-- The function `ll_instruction_unpck`.  It returns `none` when `result` is still `NULL`
at the store, which the source does not guard against. -/
def ll_instruction_unpck {σ : Type} (A : OperandAccess σ) (instr : LLInstr) (state : σ)
    (op_type : OperandDataType) : Option (LLInstr × σ) :=
  let instr := { instr with src := { instr.src with size := 16 } }
  let instr :=
    if instr.src.type = LL_OP_REG then
      { instr with src := { instr.src with reg := { instr.src.reg with rt := LL_RT_XMM } } }
    else instr
  let operand1 := A.ll_operand_load op_type ALIGN_MAXIMUM instr.dst state
  let operand2 := A.ll_operand_load op_type ALIGN_MAXIMUM instr.src state
  match ll_instruction_unpck.result instr.type operand1 operand2 with
  | none => none
  | some result =>
    some (instr, A.ll_operand_store op_type ALIGN_MAXIMUM instr.dst REG_KEEP_UPPER result state)

/-- The array `mask` that `ll_instruction_shufps` builds from the immediate. -/
def ll_instruction_shufps.mask (val : Nat) : List Nat :=
  (List.range 4).map fun i => (if i < 2 then 0 else 4) + ((val >>> (2 * i)) &&& 3)

/-- The function `ll_instruction_shufps`. -/
def ll_instruction_shufps {σ : Type} (A : OperandAccess σ) (instr : LLInstr) (state : σ) :
    LLInstr × σ :=
  let mask := ll_instruction_shufps.mask instr.src2.val
  let operand1 := A.ll_operand_load OP_VF32 ALIGN_MAXIMUM instr.dst state
  let operand2 := A.ll_operand_load OP_VF32 ALIGN_MAXIMUM instr.src state
  let result := CreateShuffleVector operand1 operand2 mask
  (instr, A.ll_operand_store OP_VF32 ALIGN_MAXIMUM instr.dst REG_KEEP_UPPER result state)

/-- The array `mask` that `ll_instruction_insertps` builds from the zero mask. -/
def ll_instruction_insertps.mask (zmask : Nat) : List Nat :=
  (List.range 4).map fun i => if zmask &&& (1 <<< i) ≠ 0 then 4 else i

/-- The function `ll_instruction_insertps`. -/
def ll_instruction_insertps {σ : Type} (A : OperandAccess σ) (instr : LLInstr) (state : σ) :
    LLInstr × σ :=
  let count_s := (instr.src2.val >>> 6) &&& 3
  let count_d := (instr.src2.val >>> 4) &&& 3
  let zmask := instr.src2.val &&& 0xf
  let src :=
    if instr.src.type = LL_OP_REG then
      CreateExtractElement (A.ll_operand_load OP_V4F32 ALIGN_MAXIMUM instr.src state) count_s
    else
      A.ll_operand_load OP_SF32 ALIGN_MAXIMUM instr.src state
  let dst := A.ll_operand_load OP_VF32 ALIGN_MAXIMUM instr.dst state
  let dst := CreateInsertElement dst src count_d
  let dst :=
    if zmask ≠ 0 then
      let mask := ll_instruction_insertps.mask zmask
      let zero := getNullValue dst
      CreateShuffleVector dst zero mask
    else dst
  (instr, A.ll_operand_store OP_VF32 ALIGN_MAXIMUM instr.dst REG_KEEP_UPPER dst state)

/-! ## The operand access layer and register file, from the specification -/

/-- Modelled from the spec: the lifting state `LLState` of llstate-internal.h, which is
not among the sources; the register file maps every symbolic register (class and index)
to the raw bit pattern it holds, and memory maps an address to a byte. -/
structure LLState where
  regs : LLReg → Nat
  mem : Nat → Nat

/-- Modelled from the spec: the shape (lane width, lane count) of a data type of the
operand access layer, which is not among the sources; the scalar types are one lane of the
named width, `OP_V2F32`, `OP_V4F32`, `OP_V1F64` have the named lane count, and
`OP_VF32`, `OP_VF64`, `OP_VI64` take as many lanes as the byte size of the operand
holds. -/
def OperandDataType.shape (type : OperandDataType) (op : LLInstrOp) : Nat × Nat :=
  match type with
  | OP_SI32 => (32, 1)
  | OP_SI64 => (64, 1)
  | OP_SF32 => (32, 1)
  | OP_SF64 => (64, 1)
  | OP_V2F32 => (32, 2)
  | OP_V4F32 => (32, 4)
  | OP_V1F64 => (64, 1)
  | OP_VF32 => (32, op.size.toNat * 8 / 32)
  | OP_VF64 => (64, op.size.toNat * 8 / 64)
  | OP_VI64 => (64, op.size.toNat * 8 / 64)

/-- Modelled from the spec: the effective address of a memory operand, computed by the
operand access layer, which is not among the sources, as
`base + index * scale + displacement`; an absent base or index register counts as zero.
The optional segment adjustment is left out. -/
def effectiveAddress (op : LLInstrOp) (state : LLState) : Nat :=
  let base := if op.reg.rt = LL_RT_None then 0 else state.regs op.reg
  let index := if op.ireg.rt = LL_RT_None then 0 else state.regs op.ireg
  (base + index * op.scale.toNat + op.val) % 2 ^ 64

/-- The `n` bytes of memory from `addr` on, read as a little-endian number. -/
def readMem (mem : Nat → Nat) (addr : Nat) : Nat → Nat
  | 0 => 0
  | n + 1 => mem addr % 256 + 256 * readMem mem (addr + 1) n

/-- Memory with the low `n` bytes of `v` written from `addr` on, little-endian. -/
def writeMem (mem : Nat → Nat) (addr n v : Nat) : Nat → Nat :=
  fun a => if addr ≤ a ∧ a < addr + n then v / 256 ^ (a - addr) % 256 else mem a

/-- Modelled from the spec: `ll_operand_load` of the operand access layer, which is not
among the sources.  A register operand yields the register's bit pattern read as the
requested type (a bit cast); a memory operand yields the bytes at the effective address;
an immediate yields the constant of the requested type. -/
def LLState.ll_operand_load (type : OperandDataType) (_alignment : Alignment)
    (op : LLInstrOp) (state : LLState) : Value :=
  let shape := type.shape op
  if op.type = LL_OP_REG then Value.ofBits shape.1 shape.2 (state.regs op.reg)
  else if op.type = LL_OP_MEM then
    Value.ofBits shape.1 shape.2
      (readMem state.mem (effectiveAddress op state) (shape.1 * shape.2 / 8))
  else Value.ofBits shape.1 shape.2 op.val

/-- Modelled from the spec: the register file's `set` with a write policy, which is not
among the sources.  Default replaces the full register value; ZeroUpperOnVectorWrite
forces all bits above the written value to zero; KeepUpperOnVectorWrite writes only the
addressed low range and preserves every bit outside it. -/
def setRegister (old : Nat) (policy : PartialRegisterHandling) (value : Value) : Nat :=
  match policy with
  | REG_DEFAULT => value.bits
  | REG_ZERO_UPPER_SSE => value.bits
  | REG_KEEP_UPPER => old / 2 ^ value.width * 2 ^ value.width + value.bits % 2 ^ value.width

/-- Modelled from the spec: `ll_operand_store` of the operand access layer, which is not
among the sources.  A register operand is written through the register file under the
given policy; a memory operand receives the bytes of the value at the effective address;
a store to any other operand kind is an implementation error and writes nothing. -/
def LLState.ll_operand_store (_type : OperandDataType) (_alignment : Alignment)
    (op : LLInstrOp) (policy : PartialRegisterHandling) (value : Value)
    (state : LLState) : LLState :=
  if op.type = LL_OP_REG then
    { state with
      regs := fun r =>
        if r = op.reg then setRegister (state.regs op.reg) policy value else state.regs r }
  else if op.type = LL_OP_MEM then
    { state with
      mem := writeMem state.mem (effectiveAddress op state) (value.width / 8) value.bits }
  else state

/-- Modelled from the spec: the operand access layer over `LLState`. -/
def LLState.access : OperandAccess LLState :=
  { ll_operand_load := LLState.ll_operand_load,
    ll_operand_store := LLState.ll_operand_store }

/-! ## Concrete inputs used to evaluate the lifters -/

/-- The operand descriptor of the 128-bit vector register `xmm<ri>`. -/
def xmmOperand (ri : Nat) : LLInstrOp :=
  { val := 0, type := LL_OP_REG, reg := { rt := LL_RT_XMM, ri := ri },
    ireg := { rt := LL_RT_None, ri := 0 }, scale := 0, seg := 0, size := 16 }

/-- An absent operand. -/
def noOperand : LLInstrOp :=
  { val := 0, type := LL_OP_NONE, reg := { rt := LL_RT_None, ri := 0 },
    ireg := { rt := LL_RT_None, ri := 0 }, scale := 0, seg := 0, size := 0 }

/-- The instruction `movss xmm0, xmm1`. -/
def movssRegReg : LLInstr :=
  { type := LL_INS_MOVSS, operand_count := 2, operand_size := 4, address_size := 8,
    dst := xmmOperand 0, src := xmmOperand 1, src2 := noOperand, addr := 0, len := 4 }

/-- A state in which `xmm0` holds four lanes `4, 3, 2, 1` (highest first), `xmm1` holds
lanes `8, 7, 6, 5`, every other register is zero and memory is zero. -/
def sampleState : LLState :=
  { regs := fun r =>
      if r = { rt := LL_RT_XMM, ri := 0 } then 0x00000004000000030000000200000001
      else if r = { rt := LL_RT_XMM, ri := 1 } then 0x00000008000000070000000600000005
      else 0,
    mem := fun _ => 0 }

/-- The operand descriptor of an 8-byte memory location addressed by the 64-bit
general-purpose register `ri`, without index or displacement. -/
def memOperand (ri : Nat) : LLInstrOp :=
  { val := 0, type := LL_OP_MEM, reg := { rt := LL_RT_GP64, ri := ri },
    ireg := { rt := LL_RT_None, ri := 0 }, scale := 0, seg := 0, size := 8 }

/-- The operand descriptor of the 8-bit immediate `val`. -/
def immOperand (val : Nat) : LLInstrOp :=
  { val := val, type := LL_OP_IMM, reg := { rt := LL_RT_None, ri := 0 },
    ireg := { rt := LL_RT_None, ri := 0 }, scale := 0, seg := 0, size := 1 }

/-- An SSE instruction with the given opcode, destination, source and second source. -/
def sseInstr (type : LLInstrType) (dst src src2 : LLInstrOp) : LLInstr :=
  { type := type, operand_count := 2, operand_size := 16, address_size := 8,
    dst := dst, src := src, src2 := src2, addr := 0, len := 4 }

/-- The instruction `unpcklps xmm0, xmm1`. -/
def unpcklpsRegReg : LLInstr := sseInstr LL_INS_UNPCKLPS (xmmOperand 0) (xmmOperand 1) noOperand

/-- The instruction `movlps xmm0, xmm1` in its register-to-register form, which moves the
high half of `xmm1` into the low half of `xmm0`. -/
def movlpsRegReg : LLInstr := sseInstr LL_INS_MOVLPS (xmmOperand 0) (xmmOperand 1) noOperand

/-- The instruction `movhps xmm1, xmm0` in its register-to-register form, which moves the
low half of `xmm0` into the high half of `xmm1`. -/
def movhpsRegReg : LLInstr := sseInstr LL_INS_MOVHPS (xmmOperand 1) (xmmOperand 0) noOperand

/-- The instruction `shufps xmm0, xmm1, 0x1b`. -/
def shufpsRegReg : LLInstr :=
  sseInstr LL_INS_SHUFPS (xmmOperand 0) (xmmOperand 1) (immOperand 0x1b)

/-- The instruction `insertps xmm0, xmm1, 0x9a`: source lane 2, destination lane 1, zero
mask `0b1010`. -/
def insertpsRegReg : LLInstr :=
  sseInstr LL_INS_INSERTPS (xmmOperand 0) (xmmOperand 1) (immOperand 0x9a)

/-- The instruction `movhpd [rax], xmm1`. -/
def movhpdToMemory : LLInstr := sseInstr LL_INS_MOVHPD (memOperand 0) (xmmOperand 1) noOperand

/-- The flags after the 8-bit subtraction `1 - 2`, before the overflow flag is computed:
the result `0xff` is negative and not zero. -/
def LifterBase.afterSub : LifterBase :=
  { cfg := { enableOverflowIntrinsics := false, enableFastMath := false },
    regfile := { zf := false, sf := true, pf := false, cf := true, of := false, af := true } }

/-! ## Arithmetic of bit patterns -/

theorem two_pow_pred_double {w : Nat} (hw : 0 < w) : 2 ^ w = 2 * 2 ^ (w - 1) := by
  obtain ⟨k, rfl⟩ : ∃ k, w = k + 1 := ⟨w - 1, by omega⟩
  simp [pow_succ, Nat.mul_comm]

theorem width_pos {N : Nat} (hN : N = 8 ∨ N = 16 ∨ N = 32 ∨ N = 64) : 4 < N := by
  omega

theorem testBit_msb {w x : Nat} (hw : 0 < w) (hx : x < 2 ^ w) :
    x.testBit (w - 1) = decide (2 ^ (w - 1) ≤ x) := by
  have h2 := two_pow_pred_double hw
  rw [Nat.testBit_to_div_mod]
  have hpos : 0 < 2 ^ (w - 1) := Nat.pos_pow_of_pos _ (by decide)
  by_cases h : 2 ^ (w - 1) ≤ x
  · have : x / 2 ^ (w - 1) = 1 := by
      apply Nat.div_eq_of_lt_le <;> omega
    simp [this, h]
  · have : x / 2 ^ (w - 1) = 0 := Nat.div_eq_of_lt (by omega)
    simp [this, h]

/-- The signed reading of a `w`-bit pattern, by the half of the range it lies in. -/
theorem toSigned_cases {w x : Nat} (hw : 0 < w) (hx : x < 2 ^ w) :
    (x < 2 ^ (w - 1) ∧ toSigned w x = (x : Int)) ∨
    (2 ^ (w - 1) ≤ x ∧ toSigned w x = (x : Int) - 2 * ((2 ^ (w - 1) : Nat) : Int)) := by
  unfold toSigned
  rw [Nat.mod_eq_of_lt hx]
  have h2 := two_pow_pred_double hw
  have hc : ((2 : Int) ^ w) = 2 * ((2 ^ (w - 1) : Nat) : Int) := by
    have : ((2 ^ w : Nat) : Int) = ((2 * 2 ^ (w - 1) : Nat) : Int) := by rw [← h2]
    push_cast at this ⊢
    exact this
  by_cases h : x < 2 ^ (w - 1)
  · left; simp [h]
  · right; simp only [h, if_false]; exact ⟨by omega, by rw [hc]⟩

/-- A signed comparison with zero reads the top bit. -/
theorem CreateICmpSLT_zero {w x : Nat} (hw : 0 < w) (hx : x < 2 ^ w) :
    CreateICmpSLT w x 0 = x.testBit (w - 1) := by
  unfold CreateICmpSLT
  have h0 : (0:Nat) < 2 ^ w := Nat.pos_pow_of_pos _ (by decide)
  have h2 := two_pow_pred_double hw
  rw [testBit_msb hw hx]
  rcases toSigned_cases hw hx with ⟨h, e⟩ | ⟨h, e⟩ <;>
  rcases toSigned_cases hw h0 with ⟨h', e'⟩ | ⟨h', e'⟩ <;>
  · rw [e, e']
    simp only [decide_eq_decide]
    omega

theorem decide_eq_bne (P Q R : Prop) [Decidable P] [Decidable Q] [Decidable R]
    (h : P ↔ ¬(Q ↔ R)) : decide P = (decide Q != decide R) := by
  by_cases hq : Q <;> by_cases hr : R <;> simp [hq, hr] at h ⊢ <;> exact h

/-- The overflow output of the signed addition equals the sign bit of the bit trick. -/
theorem addOverflow_agree {w lhs rhs : Nat} (hw : 0 < w) (hl : lhs < 2 ^ w)
    (hr : rhs < 2 ^ w) :
    CreateExtractValue1 (sadd_with_overflow w lhs rhs) =
      CreateICmpSLT w (CreateAnd (CreateNot w (CreateXor lhs rhs))
        (CreateXor ((lhs + rhs) % 2 ^ w) lhs)) 0 := by
  have hres : (lhs + rhs) % 2 ^ w < 2 ^ w := Nat.mod_lt _ (Nat.pos_pow_of_pos _ (by decide))
  have hones : 2 ^ w - 1 < 2 ^ w := Nat.sub_lt (Nat.pos_pow_of_pos _ (by decide)) (by decide)
  have hx : (lhs ^^^ rhs ^^^ (2 ^ w - 1)) &&& ((lhs + rhs) % 2 ^ w ^^^ lhs) < 2 ^ w :=
    Nat.and_lt_two_pow _ (Nat.xor_lt_two_pow hres hl)
  unfold CreateAnd CreateNot CreateXor
  rw [CreateICmpSLT_zero hw hx]
  simp only [Nat.testBit_and, Nat.testBit_xor, testBit_msb hw hl, testBit_msb hw hr,
    testBit_msb hw hres, testBit_msb hw hones]
  unfold CreateExtractValue1 sadd_with_overflow
  have h2 := two_pow_pred_double hw
  have hpos : 0 < 2 ^ (w - 1) := Nat.pos_pow_of_pos _ (by decide)
  simp only []
  have hs : ((2 : Int) ^ (w - 1)) = ((2 ^ (w - 1) : Nat) : Int) := by push_cast; rfl
  rw [hs]
  have hmod : (lhs + rhs < 2 ^ w ∧ (lhs + rhs) % 2 ^ w = lhs + rhs) ∨
      (2 ^ w ≤ lhs + rhs ∧ (lhs + rhs) % 2 ^ w = lhs + rhs - 2 ^ w) := by
    by_cases h : lhs + rhs < 2 ^ w
    · left; exact ⟨h, Nat.mod_eq_of_lt h⟩
    · right
      refine ⟨by omega, ?_⟩
      rw [Nat.mod_eq_sub_mod (by omega)]
      exact Nat.mod_eq_of_lt (by omega)
  rcases toSigned_cases hw hl with ⟨a, ea⟩ | ⟨a, ea⟩ <;>
  rcases toSigned_cases hw hr with ⟨b, eb⟩ | ⟨b, eb⟩ <;>
  · rw [ea, eb]
    clear hx ea eb
    generalize (lhs + rhs) % 2 ^ w = res at *
    rw [h2] at hl hr hres hmod hones ⊢
    clear h2
    generalize 2 ^ (w - 1) = s at *
    have c4 : s ≤ 2 * s - 1 := by omega
    by_cases c1 : s ≤ lhs <;> by_cases c2 : s ≤ rhs <;> by_cases c3 : s ≤ res <;>
      simp [c1, c2, c3, c4] <;> omega

/-- The overflow output of the signed subtraction equals the comparison trick. -/
theorem subOverflow_agree {w lhs rhs : Nat} (hw : 0 < w) (hl : lhs < 2 ^ w)
    (hr : rhs < 2 ^ w) :
    CreateExtractValue1 (ssub_with_overflow w lhs rhs) =
      CreateICmpNE1 (CreateICmpSLT w ((lhs + (2 ^ w - rhs)) % 2 ^ w) 0)
        (CreateICmpSLT w lhs rhs) := by
  have hres : (lhs + (2 ^ w - rhs)) % 2 ^ w < 2 ^ w :=
    Nat.mod_lt _ (Nat.pos_pow_of_pos _ (by decide))
  rw [CreateICmpSLT_zero hw hres, testBit_msb hw hres]
  unfold CreateExtractValue1 ssub_with_overflow CreateICmpNE1 CreateICmpSLT
  have h2 := two_pow_pred_double hw
  have hpos : 0 < 2 ^ (w - 1) := Nat.pos_pow_of_pos _ (by decide)
  simp only []
  have hs : ((2 : Int) ^ (w - 1)) = ((2 ^ (w - 1) : Nat) : Int) := by push_cast; rfl
  rw [hs]
  have hmod : (rhs ≤ lhs ∧ (lhs + (2 ^ w - rhs)) % 2 ^ w = lhs - rhs) ∨
      (lhs < rhs ∧ (lhs + (2 ^ w - rhs)) % 2 ^ w = lhs + 2 ^ w - rhs) := by
    by_cases h : rhs ≤ lhs
    · left
      refine ⟨h, ?_⟩
      rw [Nat.mod_eq_sub_mod (by omega)]
      have e : lhs + (2 ^ w - rhs) - 2 ^ w = lhs - rhs := by omega
      rw [e]
      exact Nat.mod_eq_of_lt (by omega)
    · right
      refine ⟨by omega, ?_⟩
      have e : lhs + (2 ^ w - rhs) = lhs + 2 ^ w - rhs := by omega
      rw [e]
      exact Nat.mod_eq_of_lt (by omega)
  rcases toSigned_cases hw hl with ⟨a, ea⟩ | ⟨a, ea⟩ <;>
  rcases toSigned_cases hw hr with ⟨b, eb⟩ | ⟨b, eb⟩ <;>
  · rw [ea, eb]
    clear ea eb
    generalize (lhs + (2 ^ w - rhs)) % 2 ^ w = res at *
    rw [h2] at hl hr hres hmod
    clear h2
    generalize 2 ^ (w - 1) = s at *
    apply decide_eq_bne
    omega

/-- Masking with 16 and comparing with zero reads bit 4. -/
theorem and_16_ne_zero (x : Nat) : (x &&& 16 != 0) = x.testBit 4 := by
  have h : x &&& 2 ^ 4 = (x.testBit 4).toNat * 2 ^ 4 := by
    apply Nat.eq_of_testBit_eq
    intro i
    rw [Nat.testBit_and, Nat.testBit_two_pow]
    cases hb : x.testBit 4
    · rw [Bool.toNat_false, Nat.zero_mul, Nat.zero_testBit]
      by_cases hi : 4 = i
      · subst hi; rw [hb]; rfl
      · rw [decide_eq_false hi, Bool.and_false]
    · rw [Bool.toNat_true, Nat.one_mul, Nat.testBit_two_pow]
      by_cases hi : 4 = i
      · subst hi; rw [hb]; rfl
      · rw [decide_eq_false hi, Bool.and_false]
  have h16 : (16 : Nat) = 2 ^ 4 := by norm_num
  rw [h16, h]
  cases x.testBit 4 <;> simp

/-- Bit 4 of `lhs xor rhs xor (lhs + rhs)` is the carry out of the low nibble. -/
theorem testBit4_add (lhs rhs : Nat) :
    (lhs ^^^ rhs ^^^ (lhs + rhs)).testBit 4 = decide (16 ≤ lhs % 16 + rhs % 16) := by
  rw [Nat.testBit_xor, Nat.testBit_xor]
  simp only [Nat.testBit_to_div_mod]
  have e : (2:Nat) ^ 4 = 16 := by norm_num
  rw [e]
  have h1 : lhs / 16 % 2 = 0 ∨ lhs / 16 % 2 = 1 := by omega
  have h2 : rhs / 16 % 2 = 0 ∨ rhs / 16 % 2 = 1 := by omega
  have h3 : (lhs + rhs) / 16 % 2 = 0 ∨ (lhs + rhs) / 16 % 2 = 1 := by omega
  rcases h1 with h1 | h1 <;> rcases h2 with h2 | h2 <;> rcases h3 with h3 | h3 <;>
    simp [h1, h2, h3] <;> omega

theorem filter_length_eq_card (l : List Nat) (hl : l.Nodup) (p q : Nat → Bool)
    (hpq : ∀ i ∈ l, p i = q i) :
    (l.filter p).length = ((l.toFinset).filter fun i => q i = true).card := by
  have e : l.filter p = l.filter q := List.filter_congr hpq
  rw [e, ← List.toFinset_filter, List.toFinset_card_of_nodup (hl.filter _)]

/-- The population count of the truncated value counts the set bits among bits 0 to 7. -/
theorem ctpop8_eq_card (value : Nat) :
    ctpop 8 (value % 2 ^ 8) =
      ((Finset.range 8).filter fun i => value.testBit i = true).card := by
  unfold ctpop
  rw [filter_length_eq_card (List.range 8) (List.nodup_range 8) _ (fun i => value.testBit i)]
  · have e : (List.range 8).toFinset = Finset.range 8 := by
      ext i
      rw [List.mem_toFinset, List.mem_range, Finset.mem_range]
    rw [e]
  · intro i hi
    rw [List.mem_range] at hi
    rw [Nat.testBit_mod_two_pow, decide_eq_true hi, Bool.true_and]

/-! ## Flag computation -/

/-- C1: for every width N in {8, 16, 32, 64} and all N-bit `lhs`, `rhs` with
`res = (lhs + rhs) mod 2^N`, `FlagCalcOAdd` with the intrinsics toggle on writes the
overflow output of the signed addition with overflow, with the toggle off it writes the
sign bit of `(not (lhs xor rhs)) and (res xor lhs)`, and the two runs leave the same
flags. -/
theorem FlagCalcOAdd_intrinsics_agree (self : LifterBase) (N lhs rhs : Nat)
    (hN : N = 8 ∨ N = 16 ∨ N = 32 ∨ N = 64) (hl : lhs < 2 ^ N) (hr : rhs < 2 ^ N) :
    ((self.withIntrinsics true).FlagCalcOAdd N ((lhs + rhs) % 2 ^ N) lhs rhs).GetFlag RFLAG_OF =
        (sadd_with_overflow N lhs rhs).2 ∧
    ((self.withIntrinsics false).FlagCalcOAdd N ((lhs + rhs) % 2 ^ N) lhs rhs).GetFlag RFLAG_OF =
        (((lhs ^^^ rhs) ^^^ (2 ^ N - 1)) &&& (((lhs + rhs) % 2 ^ N) ^^^ lhs)).testBit (N - 1) ∧
    ((self.withIntrinsics true).FlagCalcOAdd N ((lhs + rhs) % 2 ^ N) lhs rhs).regfile =
      ((self.withIntrinsics false).FlagCalcOAdd N ((lhs + rhs) % 2 ^ N) lhs rhs).regfile := by
  have hw : 0 < N := by omega
  have hres : (lhs + rhs) % 2 ^ N < 2 ^ N := Nat.mod_lt _ (Nat.pos_pow_of_pos _ (by decide))
  have hx : (lhs ^^^ rhs ^^^ (2 ^ N - 1)) &&& ((lhs + rhs) % 2 ^ N ^^^ lhs) < 2 ^ N :=
    Nat.and_lt_two_pow _ (Nat.xor_lt_two_pow hres hl)
  have key := addOverflow_agree hw hl hr
  have hbit := CreateICmpSLT_zero hw hx
  simp only [CreateAnd, CreateNot, CreateXor, CreateExtractValue1] at key hbit
  refine ⟨?_, ?_, ?_⟩ <;>
    simp only [LifterBase.FlagCalcOAdd, LifterBase.withIntrinsics, LifterBase.SetFlag,
      LifterBase.GetFlag, CreateAnd, CreateNot, CreateXor, CreateExtractValue1, if_true,
      Bool.false_eq_true, if_false]
  · exact hbit
  · rw [key]

/-- Witness for C1 at N = 32, `0x7FFFFFFF + 1`. -/
theorem FlagCalcOAdd_intrinsics_agree_witness :
    (32 = 8 ∨ 32 = 16 ∨ 32 = 32 ∨ 32 = 64) ∧ 0x7FFFFFFF < 2 ^ 32 ∧ 1 < 2 ^ 32 ∧
    ((LifterBase.clear.withIntrinsics true).FlagCalcOAdd 32
        ((0x7FFFFFFF + 1) % 2 ^ 32) 0x7FFFFFFF 1).regfile =
      ((LifterBase.clear.withIntrinsics false).FlagCalcOAdd 32
        ((0x7FFFFFFF + 1) % 2 ^ 32) 0x7FFFFFFF 1).regfile :=
  ⟨by decide, by decide, by decide,
    (FlagCalcOAdd_intrinsics_agree LifterBase.clear 32 0x7FFFFFFF 1
      (by decide) (by decide) (by decide)).2.2⟩

/-- C2: for every width N in {8, 16, 32, 64} and all N-bit `lhs`, `rhs` with
`res = (lhs - rhs) mod 2^N`, `FlagCalcOSub` with the intrinsics toggle on writes the
overflow output of the signed subtraction with overflow, with the toggle off it writes
`(res < 0) != (lhs < rhs)` under the signed reading, and the two runs leave the same
flags. -/
theorem FlagCalcOSub_intrinsics_agree (self : LifterBase) (N lhs rhs : Nat)
    (hN : N = 8 ∨ N = 16 ∨ N = 32 ∨ N = 64) (hl : lhs < 2 ^ N) (hr : rhs < 2 ^ N) :
    ((self.withIntrinsics true).FlagCalcOSub N ((lhs + (2 ^ N - rhs)) % 2 ^ N) lhs
        rhs).GetFlag RFLAG_OF = (ssub_with_overflow N lhs rhs).2 ∧
    ((self.withIntrinsics false).FlagCalcOSub N ((lhs + (2 ^ N - rhs)) % 2 ^ N) lhs
        rhs).GetFlag RFLAG_OF =
      (decide (toSigned N ((lhs + (2 ^ N - rhs)) % 2 ^ N) < 0) !=
        decide (toSigned N lhs < toSigned N rhs)) ∧
    ((self.withIntrinsics true).FlagCalcOSub N ((lhs + (2 ^ N - rhs)) % 2 ^ N) lhs
        rhs).regfile =
      ((self.withIntrinsics false).FlagCalcOSub N ((lhs + (2 ^ N - rhs)) % 2 ^ N) lhs
        rhs).regfile := by
  have hw : 0 < N := by omega
  have key := subOverflow_agree hw hl hr
  simp only [CreateExtractValue1, CreateICmpNE1] at key
  have h0 : toSigned N 0 = 0 := by
    have hpos : 0 < 2 ^ (N - 1) := Nat.pos_pow_of_pos _ (by decide)
    simp [toSigned, hpos]
  refine ⟨?_, ?_, ?_⟩ <;>
    simp only [LifterBase.FlagCalcOSub, LifterBase.withIntrinsics, LifterBase.SetFlag,
      LifterBase.GetFlag, CreateExtractValue1, CreateICmpNE1, if_true, Bool.false_eq_true,
      if_false]
  · simp only [CreateICmpSLT, h0]
  · rw [key]

/-- Witness for C2 at N = 8, `0x80 - 1`. -/
theorem FlagCalcOSub_intrinsics_agree_witness :
    (8 = 8 ∨ 8 = 16 ∨ 8 = 32 ∨ 8 = 64) ∧ 0x80 < 2 ^ 8 ∧ 1 < 2 ^ 8 ∧
    ((LifterBase.clear.withIntrinsics true).FlagCalcOSub 8
        ((0x80 + (2 ^ 8 - 1)) % 2 ^ 8) 0x80 1).regfile =
      ((LifterBase.clear.withIntrinsics false).FlagCalcOSub 8
        ((0x80 + (2 ^ 8 - 1)) % 2 ^ 8) 0x80 1).regfile :=
  ⟨by decide, by decide, by decide,
    (FlagCalcOSub_intrinsics_agree LifterBase.clear 8 0x80 1
      (by decide) (by decide) (by decide)).2.2⟩

/-- C3: `FlagCalcP` sets the parity flag to true exactly when the number of set bits among
bits 0 to 7 of the value is even, that is to the negation of the low bit of the
population count of the value modulo 256; a value that differs only in bits 8 and above
gives the same result. -/
theorem FlagCalcP_parity (self : LifterBase) (value : Nat) :
    (self.FlagCalcP value).GetFlag RFLAG_PF =
        decide (Even ((Finset.range 8).filter fun i => value.testBit i = true).card) ∧
    (self.FlagCalcP value).GetFlag RFLAG_PF = !(ctpop 8 (value % 256) % 2 == 1) ∧
    ∀ high : Nat, self.FlagCalcP (value % 256 + 256 * high) = self.FlagCalcP value := by
  have h256 : (256 : Nat) = 2 ^ 8 := by norm_num
  refine ⟨?_, ?_, ?_⟩
  · simp only [LifterBase.FlagCalcP, LifterBase.SetFlag, LifterBase.GetFlag,
      CreateTruncOrBitCast, CreateTruncOrBitCast1, CreateNot1]
    rw [ctpop8_eq_card]
    generalize ((Finset.range 8).filter fun i => value.testBit i = true).card = c
    have hc : c % 2 = 0 ∨ c % 2 = 1 := by omega
    rcases hc with hc | hc <;> simp [Nat.even_iff, hc]
  · simp only [LifterBase.FlagCalcP, LifterBase.SetFlag, LifterBase.GetFlag,
      CreateTruncOrBitCast, CreateTruncOrBitCast1, CreateNot1, h256]
  · intro high
    have e : (value % 256 + 256 * high) % 2 ^ 8 = value % 2 ^ 8 := by
      rw [← h256]; omega
    simp only [LifterBase.FlagCalcP, CreateTruncOrBitCast, e]

/-- C4: for every width N in {8, 16, 32, 64} and `res = (lhs + rhs) mod 2^N`, `FlagCalcA`
sets the auxiliary-carry flag to bit 4 of `lhs xor rhs xor res`, and the flag is set
exactly when the low nibbles carry, `(lhs mod 16) + (rhs mod 16) >= 16`.  The operands
need not be reduced modulo `2^N` for this, so it holds for all N-bit ones. -/
theorem FlagCalcA_add (self : LifterBase) (N lhs rhs : Nat)
    (hN : N = 8 ∨ N = 16 ∨ N = 32 ∨ N = 64) :
    (self.FlagCalcA ((lhs + rhs) % 2 ^ N) lhs rhs).GetFlag RFLAG_AF =
        ((lhs ^^^ rhs) ^^^ ((lhs + rhs) % 2 ^ N)).testBit 4 ∧
    ((self.FlagCalcA ((lhs + rhs) % 2 ^ N) lhs rhs).GetFlag RFLAG_AF = true ↔
        16 ≤ lhs % 16 + rhs % 16) := by
  have h4 : 4 < N := width_pos hN
  have hflag : (self.FlagCalcA ((lhs + rhs) % 2 ^ N) lhs rhs).GetFlag RFLAG_AF =
      ((lhs ^^^ rhs) ^^^ ((lhs + rhs) % 2 ^ N)).testBit 4 := by
    simp only [LifterBase.FlagCalcA, LifterBase.SetFlag, LifterBase.GetFlag, CreateXor,
      CreateAnd, CreateICmpNE]
    exact and_16_ne_zero _
  refine ⟨hflag, ?_⟩
  rw [hflag, Nat.testBit_xor, Nat.testBit_mod_two_pow, decide_eq_true h4, Bool.true_and,
    ← Nat.testBit_xor, testBit4_add, decide_eq_true_iff]

/-- Witness for C4 at N = 32, `0xFFFFFFFF + 1`. -/
theorem FlagCalcA_add_witness :
    (32 = 8 ∨ 32 = 16 ∨ 32 = 32 ∨ 32 = 64) ∧
    ((LifterBase.clear.FlagCalcA ((0xFFFFFFFF + 1) % 2 ^ 32) 0xFFFFFFFF 1).GetFlag RFLAG_AF =
        true ↔ 16 ≤ 0xFFFFFFFF % 16 + 1 % 16) :=
  ⟨by decide, (FlagCalcA_add LifterBase.clear 32 0xFFFFFFFF 1 (by decide)).2⟩

/-! ## Condition codes -/

/-- C5: for every flag assignment and every condition code `C` in 0..15, the switch of
`FlagCond` is entered with one of the eight base codes and yields a predicate (the
default branch is not taken), and for odd `C` the result of `FlagCond C` is the negation
of the result of `FlagCond (C - 1)`.  The predicate that the switch selects is the one at
position `C / 2` among the eight base predicates OF, CF, ZF, CF or ZF, SF, PF, SF != OF,
ZF or (SF != OF), for every flag assignment, and `FlagCond C` is that predicate for even
`C` and its negation for odd `C`. -/
theorem FlagCond_pairing (self : LifterBase) (C : Nat) (hC : C < 16) :
    clearLowBit C ∈ [Condition.O, Condition.C, Condition.Z, Condition.BE,
      Condition.S, Condition.P, Condition.L, Condition.LE] ∧
    (∃ b, FlagCond.base self (clearLowBit C) = some b) ∧
    (C % 2 = 1 → ∃ b, self.FlagCond (C - 1) = some b ∧ self.FlagCond C = some (!b)) ∧
    (∃ p : LifterBase → Bool,
      [fun s : LifterBase => s.GetFlag RFLAG_OF,
       fun s => s.GetFlag RFLAG_CF,
       fun s => s.GetFlag RFLAG_ZF,
       fun s => s.GetFlag RFLAG_CF || s.GetFlag RFLAG_ZF,
       fun s => s.GetFlag RFLAG_SF,
       fun s => s.GetFlag RFLAG_PF,
       fun s => s.GetFlag RFLAG_SF != s.GetFlag RFLAG_OF,
       fun s => s.GetFlag RFLAG_ZF || (s.GetFlag RFLAG_SF != s.GetFlag RFLAG_OF)][C / 2]? =
        some p ∧
      ∀ s : LifterBase,
        FlagCond.base s (clearLowBit C) = some (p s) ∧
        s.FlagCond C = some (if C % 2 = 1 then !(p s) else p s)) := by
  interval_cases C <;>
    refine ⟨by decide, ⟨_, rfl⟩, ?_, ⟨_, rfl, fun s => ⟨rfl, rfl⟩⟩⟩ <;> intro h <;>
    first
    | exact absurd h (by decide)
    | exact ⟨_, rfl, rfl⟩

/-- Witness for C5 at code 7, the negation of `BE`. -/
theorem FlagCond_pairing_witness :
    7 < 16 ∧
    (7 % 2 = 1 → ∃ b, LifterBase.clear.FlagCond (7 - 1) = some b ∧
      LifterBase.clear.FlagCond 7 = some (!b)) :=
  ⟨by decide, (FlagCond_pairing LifterBase.clear 7 (by decide)).2.2.1⟩

/-- C6: on the even condition codes `FlagCond` returns OF, CF, ZF, CF or ZF, SF, PF,
SF != OF, and ZF or (SF != OF), in this order. -/
theorem FlagCond_even_codes (self : LifterBase) :
    self.FlagCond Condition.O = some self.regfile.of ∧
    self.FlagCond Condition.C = some self.regfile.cf ∧
    self.FlagCond Condition.Z = some self.regfile.zf ∧
    self.FlagCond Condition.BE = some (self.regfile.cf || self.regfile.zf) ∧
    self.FlagCond Condition.S = some self.regfile.sf ∧
    self.FlagCond Condition.P = some self.regfile.pf ∧
    self.FlagCond Condition.L = some (self.regfile.sf != self.regfile.of) ∧
    self.FlagCond Condition.LE =
      some (self.regfile.zf || (self.regfile.sf != self.regfile.of)) :=
  ⟨rfl, rfl, rfl, rfl, rfl, rfl, rfl, rfl⟩

/-! ## Packed flags -/

/-- The integer built by `FlagAsReg`, as a sum. -/
theorem FlagAsReg_value (self : LifterBase) (size : Nat)
    (hsize : size = 16 ∨ size = 32 ∨ size = 64) :
    self.FlagAsReg size =
      0x202 + self.regfile.cf.toNat + 4 * self.regfile.pf.toNat + 16 * self.regfile.af.toNat +
        64 * self.regfile.zf.toNat + 128 * self.regfile.sf.toNat +
        2048 * self.regfile.of.toNat := by
  obtain ⟨cfg, ⟨zf, sf, pf, cf, of, af⟩⟩ := self
  simp only [LifterBase.FlagAsReg, FlagAsReg.flags, List.foldl, LifterBase.GetFlag, CreateOr,
    CreateShl, CreateZExt, CreateTruncOrBitCast, getInt64]
  rcases hsize with rfl | rfl | rfl <;>
    cases zf <;> cases sf <;> cases pf <;> cases cf <;> cases of <;> cases af <;> decide

/-- C7 as stated fails: with every flag clear, bit 9 of `FlagAsReg 16` is set although 9
is none of the offsets 0, 1, 2, 4, 6, 7, 11. -/
theorem FlagAsReg_other_bits_counterexample :
    ¬ (∀ i : Nat, i ∉ [0, 1, 2, 4, 6, 7, 11] →
        (LifterBase.clear.FlagAsReg 16).testBit i = false) :=
  fun h => absurd (h 9 (by decide)) (by decide)

/-- C7, amended: for every flag assignment and every size in {16, 32, 64}, the integer
returned by `FlagAsReg` has bits 1 and 9 set (the constant `0x202`), has Carry, Parity,
Auxiliary-Carry, Zero, Sign and Overflow at bits 0, 2, 4, 6, 7 and 11, and has every other
bit equal to zero. -/
theorem FlagAsReg_bits (self : LifterBase) (size : Nat)
    (hsize : size = 16 ∨ size = 32 ∨ size = 64) (i : Nat) :
    (self.FlagAsReg size).testBit i =
      (decide (i = 1) || decide (i = 9) ||
       (decide (i = 0) && self.GetFlag RFLAG_CF) || (decide (i = 2) && self.GetFlag RFLAG_PF) ||
       (decide (i = 4) && self.GetFlag RFLAG_AF) || (decide (i = 6) && self.GetFlag RFLAG_ZF) ||
       (decide (i = 7) && self.GetFlag RFLAG_SF) ||
       (decide (i = 11) && self.GetFlag RFLAG_OF)) := by
  rw [FlagAsReg_value self size hsize]
  obtain ⟨cfg, ⟨zf, sf, pf, cf, of, af⟩⟩ := self
  simp only [LifterBase.GetFlag]
  by_cases hi : i < 12
  · interval_cases i <;>
      cases zf <;> cases sf <;> cases pf <;> cases cf <;> cases of <;> cases af <;> decide
  · have hlt : 0x202 + cf.toNat + 4 * pf.toNat + 16 * af.toNat + 64 * zf.toNat +
        128 * sf.toNat + 2048 * of.toNat < 2 ^ i := by
      have : 2 ^ 12 ≤ 2 ^ i := Nat.pow_le_pow_right (by decide) (by omega)
      have := Bool.toNat_le cf; have := Bool.toNat_le pf; have := Bool.toNat_le af
      have := Bool.toNat_le zf; have := Bool.toNat_le sf; have := Bool.toNat_le of
      omega
    have h1 : ¬ i = 1 := by omega
    have h9 : ¬ i = 9 := by omega
    have h0 : ¬ i = 0 := by omega
    have h2 : ¬ i = 2 := by omega
    have h4 : ¬ i = 4 := by omega
    have h6 : ¬ i = 6 := by omega
    have h7 : ¬ i = 7 := by omega
    have h11 : ¬ i = 11 := by omega
    rw [Nat.testBit_lt_two_pow hlt]
    simp [h1, h9, h0, h2, h4, h6, h7, h11]

/-- Witness for the amended C7: bit 9 of the 16-bit flags word of the clear state. -/
theorem FlagAsReg_bits_witness :
    (16 = 16 ∨ 16 = 32 ∨ 16 = 64) ∧
    (LifterBase.clear.FlagAsReg 16).testBit 9 =
      (decide (9 = 1) || decide (9 = 9) ||
       (decide (9 = 0) && LifterBase.clear.GetFlag RFLAG_CF) ||
       (decide (9 = 2) && LifterBase.clear.GetFlag RFLAG_PF) ||
       (decide (9 = 4) && LifterBase.clear.GetFlag RFLAG_AF) ||
       (decide (9 = 6) && LifterBase.clear.GetFlag RFLAG_ZF) ||
       (decide (9 = 7) && LifterBase.clear.GetFlag RFLAG_SF) ||
       (decide (9 = 11) && LifterBase.clear.GetFlag RFLAG_OF)) :=
  ⟨by decide, FlagAsReg_bits LifterBase.clear 16 (by decide) 9⟩

/-- C8 as stated fails: with Carry and Zero set and the other four flags clear,
`FlagAsReg 16` is not `0x0247`. -/
theorem FlagAsReg_carry_zero_counterexample :
    ¬ ((({ cfg := { enableOverflowIntrinsics := false, enableFastMath := false },
           regfile := { zf := true, sf := false, pf := false, cf := true, of := false,
                        af := false } } : LifterBase).FlagAsReg 16) = 0x0247) := by
  rw [FlagAsReg_value _ 16 (Or.inl rfl)]
  decide

/-- C8, amended: with Carry = 1, Zero = 1, Sign = 0, Overflow = 0, Parity = 0 and
AuxCarry = 0, under every configuration, `FlagAsReg 16` returns `0x0243`, which is
`0x0202 | 0x0001 | 0x0040`. -/
theorem FlagAsReg_carry_zero (cfg : LLConfig) :
    ({ cfg := cfg,
       regfile := { zf := true, sf := false, pf := false, cf := true, of := false,
                    af := false } } : LifterBase).FlagAsReg 16 = 0x0243 ∧
    0x0202 ||| 0x0001 ||| 0x0040 = 0x0243 := by
  refine ⟨?_, by decide⟩
  rw [FlagAsReg_value _ 16 (Or.inl rfl)]
  rfl

/-! ## Scalar moves -/

theorem Value.bits_ofBits_one (w x : Nat) : (Value.ofBits w 1 x).bits = x % 2 ^ w := by
  simp [Value.ofBits, Value.bits, List.range_succ]

theorem Value.width_ofBits (w n x : Nat) : (Value.ofBits w n x).width = w * n := by
  simp [Value.ofBits, Value.width]

/-- A one-lane write under the zero-upper policy: the low `w` bits are the value, all
bits above are zero. -/
theorem setRegister_zero_upper (old w x : Nat) :
    setRegister old REG_ZERO_UPPER_SSE (Value.ofBits w 1 x) % 2 ^ w = x % 2 ^ w ∧
    setRegister old REG_ZERO_UPPER_SSE (Value.ofBits w 1 x) / 2 ^ w = 0 := by
  have hpos : 0 < 2 ^ w := Nat.pos_pow_of_pos _ (by decide)
  simp only [setRegister, Value.bits_ofBits_one]
  exact ⟨Nat.mod_mod _ _, Nat.div_eq_of_lt (Nat.mod_lt _ hpos)⟩

/-- A one-lane write under the keep-upper policy: the low `w` bits are the value, all
bits above are the old ones. -/
theorem setRegister_keep_upper (old w x : Nat) :
    setRegister old REG_KEEP_UPPER (Value.ofBits w 1 x) % 2 ^ w = x % 2 ^ w ∧
    setRegister old REG_KEEP_UPPER (Value.ofBits w 1 x) / 2 ^ w = old / 2 ^ w := by
  have hpos : 0 < 2 ^ w := Nat.pos_pow_of_pos _ (by decide)
  simp only [setRegister, Value.bits_ofBits_one, Value.width_ofBits, Nat.mul_one, Nat.mod_mod]
  constructor
  · rw [Nat.add_comm, Nat.add_mul_mod_self_right, Nat.mod_mod]
  · rw [Nat.add_comm, Nat.add_mul_div_right _ _ hpos, Nat.div_eq_of_lt (Nat.mod_lt _ hpos),
      Nat.zero_add]

/-- C9: `ll_instruction_movs` with a register destination stores the scalar loaded from
the source with the zero-upper policy when the source is memory and with the keep-upper
policy when it is a register.  Over the register file of the specification the low 32
bits (64 unless the opcode is MOVSS) of the destination become the source scalar, and
the bits above them become zero for a memory source and keep their prior value for a
register source. -/
theorem ll_instruction_movs_upper (instr : LLInstr) (state : LLState)
    (hdst : instr.dst.type = LL_OP_REG)
    (hsrc : instr.src.type = LL_OP_MEM ∨ instr.src.type = LL_OP_REG) :
    (∀ (σ : Type) (A : OperandAccess σ) (s : σ),
      ll_instruction_movs A instr s =
        (instr, A.ll_operand_store (if instr.type = LL_INS_MOVSS then OP_SF32 else OP_SF64)
          ALIGN_MAXIMUM instr.dst
          (if instr.src.type = LL_OP_MEM then REG_ZERO_UPPER_SSE else REG_KEEP_UPPER)
          (A.ll_operand_load (if instr.type = LL_INS_MOVSS then OP_SF32 else OP_SF64)
            ALIGN_MAXIMUM instr.src s) s)) ∧
    (ll_instruction_movs LLState.access instr state).2.regs instr.dst.reg %
        2 ^ (if instr.type = LL_INS_MOVSS then 32 else 64) =
      (if instr.src.type = LL_OP_MEM then
          readMem state.mem (effectiveAddress instr.src state)
            (if instr.type = LL_INS_MOVSS then 4 else 8)
        else state.regs instr.src.reg) % 2 ^ (if instr.type = LL_INS_MOVSS then 32 else 64) ∧
    (ll_instruction_movs LLState.access instr state).2.regs instr.dst.reg /
        2 ^ (if instr.type = LL_INS_MOVSS then 32 else 64) =
      (if instr.src.type = LL_OP_MEM then 0
        else state.regs instr.dst.reg / 2 ^ (if instr.type = LL_INS_MOVSS then 32 else 64)) := by
  refine ⟨?_, ?_⟩
  · intro σ A s
    unfold ll_instruction_movs
    by_cases hm : instr.src.type = LL_OP_MEM <;> simp [hm]
  · have hne : LL_OP_MEM ≠ LL_OP_REG := by decide
    unfold ll_instruction_movs
    rcases hsrc with hm | hr
    · have hnr : ¬ instr.src.type = LL_OP_REG := by rw [hm]; exact hne
      by_cases ht : instr.type = LL_INS_MOVSS <;>
        simp only [hm, ht, if_true, if_false, LLState.access, LLState.ll_operand_store,
          LLState.ll_operand_load, hdst, hnr, OperandDataType.shape] <;>
        exact setRegister_zero_upper _ _ _
    · have hrm : ¬ LL_OP_REG = LL_OP_MEM := fun h => hne h.symm
      by_cases ht : instr.type = LL_INS_MOVSS <;>
        simp only [hrm, hr, ht, if_true, if_false, LLState.access, LLState.ll_operand_store,
          LLState.ll_operand_load, hdst, OperandDataType.shape] <;>
        exact setRegister_keep_upper _ _ _

/-- Witness for C9: `movss xmm0, xmm1` on the sample state. -/
theorem ll_instruction_movs_upper_witness :
    movssRegReg.dst.type = LL_OP_REG ∧
    (movssRegReg.src.type = LL_OP_MEM ∨ movssRegReg.src.type = LL_OP_REG) ∧
    (ll_instruction_movs LLState.access movssRegReg sampleState).2.regs movssRegReg.dst.reg %
        2 ^ (if movssRegReg.type = LL_INS_MOVSS then 32 else 64) =
      (if movssRegReg.src.type = LL_OP_MEM then
          readMem sampleState.mem (effectiveAddress movssRegReg.src sampleState)
            (if movssRegReg.type = LL_INS_MOVSS then 4 else 8)
        else sampleState.regs movssRegReg.src.reg) %
        2 ^ (if movssRegReg.type = LL_INS_MOVSS then 32 else 64) ∧
    (ll_instruction_movs LLState.access movssRegReg sampleState).2.regs movssRegReg.dst.reg /
        2 ^ (if movssRegReg.type = LL_INS_MOVSS then 32 else 64) =
      (if movssRegReg.src.type = LL_OP_MEM then 0
        else sampleState.regs movssRegReg.dst.reg /
          2 ^ (if movssRegReg.type = LL_INS_MOVSS then 32 else 64)) :=
  ⟨by decide, by decide,
    (ll_instruction_movs_upper movssRegReg sampleState (by decide) (by decide)).2⟩

/-- C10: `ll_instruction_movq` makes one store, of the source loaded as a 64-bit integer
when the opcode is MOVQ and as a 32-bit integer for every other opcode; the store uses
the zero-upper policy exactly when the destination is a register of a vector class and
the default policy exactly when it is not. -/
theorem ll_instruction_movq_policy (instr : LLInstr) :
    ∃ (type : OperandDataType) (policy : PartialRegisterHandling),
      (type = OP_SI64 ↔ instr.type = LL_INS_MOVQ) ∧
      (type = OP_SI32 ↔ instr.type ≠ LL_INS_MOVQ) ∧
      (policy = REG_ZERO_UPPER_SSE ↔
        (instr.dst.type = LL_OP_REG ∧ regIsV instr.dst.reg = true)) ∧
      (policy = REG_DEFAULT ↔ ¬(instr.dst.type = LL_OP_REG ∧ regIsV instr.dst.reg = true)) ∧
      ∀ (σ : Type) (A : OperandAccess σ) (state : σ),
        ll_instruction_movq A instr state =
          (instr, A.ll_operand_store type ALIGN_MAXIMUM instr.dst policy
            (A.ll_operand_load type ALIGN_MAXIMUM instr.src state) state) := by
  refine ⟨if instr.type = LL_INS_MOVQ then OP_SI64 else OP_SI32,
    if instr.dst.type = LL_OP_REG ∧ regIsV instr.dst.reg = true then REG_ZERO_UPPER_SSE
      else REG_DEFAULT, ?_, ?_, ?_, ?_, ?_⟩
  · by_cases h : instr.type = LL_INS_MOVQ <;> simp [h]
  · by_cases h : instr.type = LL_INS_MOVQ <;> simp [h]
  · by_cases h : instr.dst.type = LL_OP_REG ∧ regIsV instr.dst.reg = true <;> simp [h]
  · by_cases h : instr.dst.type = LL_OP_REG ∧ regIsV instr.dst.reg = true <;> simp [h]
  · intro σ A state
    unfold ll_instruction_movq
    by_cases h : instr.dst.type = LL_OP_REG ∧ regIsV instr.dst.reg = true <;> simp [h]

/-! ## Unpack, shuffle and insert -/

/-- C11: when the destination loads as the lanes `[a0, a1, a2, a3]` and the widened source
as `[b0, b1, b2, b3]`, `ll_instruction_unpck` stores `[a0, b0, a1, b1]` to the destination
for UNPCKLPS and `[a2, b2, a3, b3]` for UNPCKHPS; when they load as `[a0, a1]` and
`[b0, b1]` it stores `[a0, b0]` for UNPCKLPD and `[a1, b1]` for UNPCKHPD. -/
theorem ll_instruction_unpck_lanes {σ : Type} (A : OperandAccess σ) (instr : LLInstr)
    (state : σ) (op_type : OperandDataType) (w a0 a1 a2 a3 b0 b1 b2 b3 : Nat)
    (h : (instr.type = LL_INS_UNPCKLPS ∨ instr.type = LL_INS_UNPCKHPS) ∧
         A.ll_operand_load op_type ALIGN_MAXIMUM instr.dst state = ⟨w, [a0, a1, a2, a3]⟩ ∧
         A.ll_operand_load op_type ALIGN_MAXIMUM
           (if instr.src.type = LL_OP_REG then
              { instr.src with size := 16, reg := { instr.src.reg with rt := LL_RT_XMM } }
            else { instr.src with size := 16 }) state = ⟨w, [b0, b1, b2, b3]⟩ ∨
         (instr.type = LL_INS_UNPCKLPD ∨ instr.type = LL_INS_UNPCKHPD) ∧
         A.ll_operand_load op_type ALIGN_MAXIMUM instr.dst state = ⟨w, [a0, a1]⟩ ∧
         A.ll_operand_load op_type ALIGN_MAXIMUM
           (if instr.src.type = LL_OP_REG then
              { instr.src with size := 16, reg := { instr.src.reg with rt := LL_RT_XMM } }
            else { instr.src with size := 16 }) state = ⟨w, [b0, b1]⟩) :
    (ll_instruction_unpck A instr state op_type).map (fun r => r.2) =
      some (A.ll_operand_store op_type ALIGN_MAXIMUM instr.dst REG_KEEP_UPPER
        ⟨w, if instr.type = LL_INS_UNPCKLPS then [a0, b0, a1, b1]
            else if instr.type = LL_INS_UNPCKHPS then [a2, b2, a3, b3]
            else if instr.type = LL_INS_UNPCKLPD then [a0, b0]
            else [a1, b1]⟩ state) := by
  unfold ll_instruction_unpck
  by_cases hr : instr.src.type = LL_OP_REG
  · simp only [hr, if_true] at h ⊢
    rcases h with ⟨ht | ht, hA, hB⟩ | ⟨ht | ht, hA, hB⟩ <;>
      simp [ht, hA, hB, ll_instruction_unpck.result, CreateShuffleVector]
  · simp only [hr, if_false] at h ⊢
    rcases h with ⟨ht | ht, hA, hB⟩ | ⟨ht | ht, hA, hB⟩ <;>
      simp [ht, hA, hB, ll_instruction_unpck.result, CreateShuffleVector]

/-- Witness for C11: `unpcklps xmm0, xmm1` on the sample state, where `xmm0` holds the
lanes `[1, 2, 3, 4]` and `xmm1` holds `[5, 6, 7, 8]`. -/
theorem ll_instruction_unpck_lanes_witness :
    unpcklpsRegReg.type = LL_INS_UNPCKLPS ∧
    LLState.access.ll_operand_load OP_VF32 ALIGN_MAXIMUM unpcklpsRegReg.dst sampleState =
      ⟨32, [1, 2, 3, 4]⟩ ∧
    LLState.access.ll_operand_load OP_VF32 ALIGN_MAXIMUM
      (if unpcklpsRegReg.src.type = LL_OP_REG then
         { unpcklpsRegReg.src with
           size := 16, reg := { unpcklpsRegReg.src.reg with rt := LL_RT_XMM } }
       else { unpcklpsRegReg.src with size := 16 }) sampleState = ⟨32, [5, 6, 7, 8]⟩ ∧
    (ll_instruction_unpck LLState.access unpcklpsRegReg sampleState OP_VF32).map
        (fun r => r.2) =
      some (LLState.access.ll_operand_store OP_VF32 ALIGN_MAXIMUM unpcklpsRegReg.dst
        REG_KEEP_UPPER
        ⟨32, if unpcklpsRegReg.type = LL_INS_UNPCKLPS then [1, 5, 2, 6]
             else if unpcklpsRegReg.type = LL_INS_UNPCKHPS then [3, 7, 4, 8]
             else if unpcklpsRegReg.type = LL_INS_UNPCKLPD then [1, 5]
             else [2, 6]⟩ sampleState) :=
  ⟨rfl, by decide, by decide,
    ll_instruction_unpck_lanes LLState.access unpcklpsRegReg sampleState OP_VF32 32 1 2 3 4
      5 6 7 8 (Or.inl ⟨Or.inl rfl, by decide, by decide⟩)⟩

theorem and_3_lt (x : Nat) : x &&& 3 < 4 := by
  have : x &&& 3 ≤ 3 := Nat.and_le_right
  omega

/-- The four shuffle indices of `ll_instruction_shufps`, written out. -/
theorem shufps_mask_eq (val : Nat) :
    ll_instruction_shufps.mask val =
      [val &&& 3, (val >>> 2) &&& 3, 4 + ((val >>> 4) &&& 3), 4 + ((val >>> 6) &&& 3)] := by
  simp [ll_instruction_shufps.mask, List.range_succ]

/-- The shuffle indices depend on the low 8 bits of the immediate only. -/
theorem shufps_mask_low8 (val : Nat) :
    ll_instruction_shufps.mask (val % 256) = ll_instruction_shufps.mask val := by
  rw [shufps_mask_eq, shufps_mask_eq]
  have h : ∀ k, k ≤ 6 → ((val % 256) >>> k) &&& 3 = (val >>> k) &&& 3 := by
    intro k hk
    apply Nat.eq_of_testBit_eq
    intro i
    have h3 : (3 : Nat) = 2 ^ 2 - 1 := by norm_num
    have h256 : (256 : Nat) = 2 ^ 8 := by norm_num
    rw [Nat.testBit_and, Nat.testBit_and, Nat.testBit_shiftRight, Nat.testBit_shiftRight,
      h256, Nat.testBit_mod_two_pow, h3, Nat.testBit_two_pow_sub_one]
    by_cases hi : i < 2
    · have : k + i < 8 := by omega
      simp [hi, this]
    · simp [hi]
  have h0 := h 0 (by omega)
  simp only [Nat.shiftRight_zero] at h0
  rw [h0, h 2 (by omega), h 4 (by omega), h 6 (by omega)]

theorem getD_append_add4 (d s : List Nat) (hd : d.length = 4) (k : Nat) :
    (d ++ s).getD (4 + k) 0 = s.getD k 0 := by
  rw [List.getD_eq_getElem?_getD, List.getD_eq_getElem?_getD,
    List.getElem?_append_right (by omega)]
  congr 2
  omega

theorem getD_append_lt4 (d s : List Nat) (hd : d.length = 4) (k : Nat) (hk : k < 4) :
    (d ++ s).getD k 0 = d.getD k 0 := by
  rw [List.getD_eq_getElem?_getD, List.getD_eq_getElem?_getD,
    List.getElem?_append_left (by omega)]

/-- C13: when the destination loads as the lanes `D = [d0, d1, d2, d3]` and the source as
`S = [s0, s1, s2, s3]`, `ll_instruction_shufps` stores to the destination the vector whose
lane `i` is `D[(imm >> 2i) & 3]` for `i` in {0, 1} and `S[(imm >> 2i) & 3]` for `i` in
{2, 3}; the shuffle indices it builds lie in 0..3 for lanes 0-1 and in 4..7 for lanes
2-3, and they depend on the low 8 bits of the immediate only. -/
theorem ll_instruction_shufps_lanes {σ : Type} (A : OperandAccess σ) (instr : LLInstr)
    (state : σ) (w d0 d1 d2 d3 s0 s1 s2 s3 : Nat)
    (hD : A.ll_operand_load OP_VF32 ALIGN_MAXIMUM instr.dst state = ⟨w, [d0, d1, d2, d3]⟩)
    (hS : A.ll_operand_load OP_VF32 ALIGN_MAXIMUM instr.src state = ⟨w, [s0, s1, s2, s3]⟩) :
    ll_instruction_shufps A instr state =
      (instr, A.ll_operand_store OP_VF32 ALIGN_MAXIMUM instr.dst REG_KEEP_UPPER
        { laneBits := w,
          lanes :=
            [[d0, d1, d2, d3].getD (instr.src2.val &&& 3) 0,
             [d0, d1, d2, d3].getD ((instr.src2.val >>> 2) &&& 3) 0,
             [s0, s1, s2, s3].getD ((instr.src2.val >>> 4) &&& 3) 0,
             [s0, s1, s2, s3].getD ((instr.src2.val >>> 6) &&& 3) 0] } state) ∧
    (∀ i, i < 4 → ∀ k, (ll_instruction_shufps.mask instr.src2.val)[i]? = some k →
        (i < 2 → k < 4) ∧ (2 ≤ i → 4 ≤ k ∧ k < 8)) ∧
    ll_instruction_shufps.mask (instr.src2.val % 256) =
      ll_instruction_shufps.mask instr.src2.val := by
  refine ⟨?_, ?_, shufps_mask_low8 _⟩
  · unfold ll_instruction_shufps CreateShuffleVector
    simp only [shufps_mask_eq, List.map_cons, List.map_nil, hD, hS]
    rw [getD_append_lt4 [d0, d1, d2, d3] _ rfl _ (and_3_lt _),
      getD_append_lt4 [d0, d1, d2, d3] _ rfl _ (and_3_lt _),
      getD_append_add4 [d0, d1, d2, d3] _ rfl, getD_append_add4 [d0, d1, d2, d3] _ rfl]
  · intro i hi k hk
    rw [shufps_mask_eq] at hk
    have h0 := and_3_lt instr.src2.val
    have h1 := and_3_lt (instr.src2.val >>> 2)
    have h2 := and_3_lt (instr.src2.val >>> 4)
    have h3 := and_3_lt (instr.src2.val >>> 6)
    interval_cases i <;> simp at hk <;> omega

/-- Witness for C13: `shufps xmm0, xmm1, 0x1b` on the sample state. -/
theorem ll_instruction_shufps_lanes_witness :
    LLState.access.ll_operand_load OP_VF32 ALIGN_MAXIMUM shufpsRegReg.dst sampleState =
      ⟨32, [1, 2, 3, 4]⟩ ∧
    LLState.access.ll_operand_load OP_VF32 ALIGN_MAXIMUM shufpsRegReg.src sampleState =
      ⟨32, [5, 6, 7, 8]⟩ ∧
    ll_instruction_shufps LLState.access shufpsRegReg sampleState =
      (shufpsRegReg,
        LLState.access.ll_operand_store OP_VF32 ALIGN_MAXIMUM shufpsRegReg.dst REG_KEEP_UPPER
          { laneBits := 32,
            lanes :=
              [[1, 2, 3, 4].getD (shufpsRegReg.src2.val &&& 3) 0,
               [1, 2, 3, 4].getD ((shufpsRegReg.src2.val >>> 2) &&& 3) 0,
               [5, 6, 7, 8].getD ((shufpsRegReg.src2.val >>> 4) &&& 3) 0,
               [5, 6, 7, 8].getD ((shufpsRegReg.src2.val >>> 6) &&& 3) 0] } sampleState) :=
  ⟨by decide, by decide,
    (ll_instruction_shufps_lanes LLState.access shufpsRegReg sampleState 32 1 2 3 4 5 6 7 8
      (by decide) (by decide)).1⟩

/-- The test `zmask & (1 << i)` of `ll_instruction_insertps` reads bit `i`. -/
theorem and_one_shiftLeft_ne_zero (x i : Nat) :
    (x &&& (1 <<< i) ≠ 0) ↔ x.testBit i = true := by
  have h : x &&& 2 ^ i = (x.testBit i).toNat * 2 ^ i := by
    apply Nat.eq_of_testBit_eq
    intro j
    rw [Nat.testBit_and, Nat.testBit_two_pow]
    cases hb : x.testBit i
    · rw [Bool.toNat_false, Nat.zero_mul, Nat.zero_testBit]
      by_cases hi : i = j
      · subst hi; rw [hb]; rfl
      · rw [decide_eq_false hi, Bool.and_false]
    · rw [Bool.toNat_true, Nat.one_mul, Nat.testBit_two_pow]
      by_cases hi : i = j
      · subst hi; rw [hb]; rfl
      · rw [decide_eq_false hi, Bool.and_false]
  rw [Nat.one_shiftLeft, h]
  have hpos : 0 < 2 ^ i := Nat.pos_pow_of_pos _ (by decide)
  cases x.testBit i
  · simp
  · simp

theorem insertps_mask_eq (zmask : Nat) :
    ll_instruction_insertps.mask zmask =
      (List.range 4).map fun i => if zmask.testBit i = true then 4 else i := by
  unfold ll_instruction_insertps.mask
  apply List.map_congr_left
  intro i _
  by_cases h : zmask.testBit i = true
  · rw [if_pos ((and_one_shiftLeft_ne_zero _ _).2 h), if_pos h]
  · rw [if_neg (fun h' => h ((and_one_shiftLeft_ne_zero _ _).1 h')), if_neg h]

/-- C14: when the destination loads as the lanes `D = [d0, d1, d2, d3]` and `scalar` is
lane `(imm >> 6) & 3` of a register source, or the loaded 32-bit scalar of any other
source, `ll_instruction_insertps` stores the vector whose lane `i` is zero when bit `i` of
`imm & 0xf` is set, else `scalar` when `i = (imm >> 4) & 3`, else `D[i]`.  When the zero
mask is 0 the stored vector is the plain insertion, and the zeroing shuffle, had it been
made, would have returned the plain insertion as well. -/
theorem ll_instruction_insertps_lanes {σ : Type} (A : OperandAccess σ) (instr : LLInstr)
    (state : σ) (w d0 d1 d2 d3 scalar : Nat)
    (hD : A.ll_operand_load OP_VF32 ALIGN_MAXIMUM instr.dst state = ⟨w, [d0, d1, d2, d3]⟩)
    (hS : scalar =
      if instr.src.type = LL_OP_REG then
        (A.ll_operand_load OP_V4F32 ALIGN_MAXIMUM instr.src state).lanes.getD
          ((instr.src2.val >>> 6) &&& 3) 0
      else (A.ll_operand_load OP_SF32 ALIGN_MAXIMUM instr.src state).lanes.getD 0 0) :
    ll_instruction_insertps A instr state =
      (instr, A.ll_operand_store OP_VF32 ALIGN_MAXIMUM instr.dst REG_KEEP_UPPER
        { laneBits := w,
          lanes := (List.range 4).map fun i =>
            if (instr.src2.val &&& 0xf).testBit i = true then 0
            else if i = (instr.src2.val >>> 4) &&& 3 then scalar
            else [d0, d1, d2, d3].getD i 0 } state) ∧
    (instr.src2.val &&& 0xf = 0 →
      ll_instruction_insertps A instr state =
        (instr, A.ll_operand_store OP_VF32 ALIGN_MAXIMUM instr.dst REG_KEEP_UPPER
          (CreateInsertElement ⟨w, [d0, d1, d2, d3]⟩ ⟨w, [scalar]⟩
            ((instr.src2.val >>> 4) &&& 3)) state) ∧
      CreateShuffleVector
          (CreateInsertElement ⟨w, [d0, d1, d2, d3]⟩ ⟨w, [scalar]⟩
            ((instr.src2.val >>> 4) &&& 3))
          (getNullValue (CreateInsertElement ⟨w, [d0, d1, d2, d3]⟩ ⟨w, [scalar]⟩
            ((instr.src2.val >>> 4) &&& 3)))
          (ll_instruction_insertps.mask (instr.src2.val &&& 0xf)) =
        CreateInsertElement ⟨w, [d0, d1, d2, d3]⟩ ⟨w, [scalar]⟩
          ((instr.src2.val >>> 4) &&& 3)) := by
  have hsrc : (if instr.src.type = LL_OP_REG then
        CreateExtractElement (A.ll_operand_load OP_V4F32 ALIGN_MAXIMUM instr.src state)
          ((instr.src2.val >>> 6) &&& 3)
      else A.ll_operand_load OP_SF32 ALIGN_MAXIMUM instr.src state).lanes.getD 0 0 =
      scalar := by
    rw [hS]
    by_cases hr : instr.src.type = LL_OP_REG
    · simp [hr, CreateExtractElement]
    · simp [hr]
  unfold ll_instruction_insertps
  simp only [hD, insertps_mask_eq]
  unfold CreateInsertElement
  simp only [hsrc]
  have hcd : (instr.src2.val >>> 4) &&& 3 < 4 := by
    have : (instr.src2.val >>> 4) &&& 3 ≤ 3 := Nat.and_le_right
    omega
  have hz : instr.src2.val &&& 0xf < 16 := by
    have : instr.src2.val &&& 0xf ≤ 0xf := Nat.and_le_right
    omega
  generalize (instr.src2.val >>> 4) &&& 3 = cd at hcd ⊢
  generalize instr.src2.val &&& 0xf = z at hz ⊢
  interval_cases cd <;> interval_cases z <;>
    simp [CreateShuffleVector, getNullValue, List.range_succ, Nat.testBit_succ]

/-- Witness for C14: `insertps xmm0, xmm1, 0x9a` on the sample state inserts lane 2 of
`xmm1`, which is 7. -/
theorem ll_instruction_insertps_lanes_witness :
    LLState.access.ll_operand_load OP_VF32 ALIGN_MAXIMUM insertpsRegReg.dst sampleState =
      ⟨32, [1, 2, 3, 4]⟩ ∧
    (7 =
      if insertpsRegReg.src.type = LL_OP_REG then
        (LLState.access.ll_operand_load OP_V4F32 ALIGN_MAXIMUM insertpsRegReg.src
          sampleState).lanes.getD ((insertpsRegReg.src2.val >>> 6) &&& 3) 0
      else (LLState.access.ll_operand_load OP_SF32 ALIGN_MAXIMUM insertpsRegReg.src
          sampleState).lanes.getD 0 0) ∧
    ll_instruction_insertps LLState.access insertpsRegReg sampleState =
      (insertpsRegReg,
        LLState.access.ll_operand_store OP_VF32 ALIGN_MAXIMUM insertpsRegReg.dst
          REG_KEEP_UPPER
          { laneBits := 32,
            lanes := (List.range 4).map fun i =>
              if (insertpsRegReg.src2.val &&& 0xf).testBit i = true then 0
              else if i = (insertpsRegReg.src2.val >>> 4) &&& 3 then 7
              else [1, 2, 3, 4].getD i 0 } sampleState) :=
  ⟨by decide, by decide,
    (ll_instruction_insertps_lanes LLState.access insertpsRegReg sampleState 32 1 2 3 4 7
      (by decide) (by decide)).1⟩

/-! ## High and low half moves -/

theorem Value.ofBits_32_4 (x : Nat) :
    Value.ofBits 32 4 x =
      ⟨32, [x % 2 ^ 32, x / 2 ^ 32 % 2 ^ 32, x / 2 ^ 64 % 2 ^ 32, x / 2 ^ 96 % 2 ^ 32]⟩ := by
  simp [Value.ofBits, List.range_succ]

theorem Value.bits_32_4 (a b c d : Nat) :
    (⟨32, [a, b, c, d]⟩ : Value).bits =
      a % 2 ^ 32 + 2 ^ 32 * (b % 2 ^ 32) + 2 ^ 64 * (c % 2 ^ 32) + 2 ^ 96 * (d % 2 ^ 32) := by
  simp only [Value.bits, List.foldr]
  omega

theorem Value.width_32_4 (a b c d : Nat) : (⟨32, [a, b, c, d]⟩ : Value).width = 128 := by
  simp [Value.width]

/-- The register-to-register form of `ll_instruction_movlp` over the register file: the
low 64 bits of the destination become the high 64 bits of the source. -/
theorem movlp_reg_reg_regs (i1 : LLInstr) (state : LLState)
    (hd1 : i1.dst.type = LL_OP_REG) (hs1 : i1.src.type = LL_OP_REG) (r : LLReg) :
    (ll_instruction_movlp LLState.access i1 state).2.regs r =
      if r = i1.dst.reg then
        state.regs i1.dst.reg / 2 ^ 64 * 2 ^ 64 + state.regs i1.src.reg / 2 ^ 64 % 2 ^ 64
      else state.regs r := by
  unfold ll_instruction_movlp
  simp only [hd1, hs1, and_self, if_true, LLState.access, LLState.ll_operand_store,
    LLState.ll_operand_load, OperandDataType.shape, Value.ofBits_32_4, CreateShuffleVector,
    List.map, List.cons_append, List.nil_append, List.getD_cons_succ, List.getD_cons_zero]
  by_cases hr : r = i1.dst.reg
  · simp only [hr, if_true, setRegister, Value.bits_32_4, Value.width_32_4]
    omega
  · simp only [hr, if_false]

/-- The register-destination form of `ll_instruction_movhps` with a register source, over
the register file: bits 64 to 127 of the destination become the low 64 bits of the
source. -/
theorem movhps_reg_reg_regs (i2 : LLInstr) (state : LLState)
    (hd2 : i2.dst.type = LL_OP_REG) (hs2 : i2.src.type = LL_OP_REG)
    (hx : i2.dst.reg.rt = LL_RT_XMM) (r : LLReg) :
    (ll_instruction_movhps LLState.access i2 state).2.regs r =
      if r = i2.dst.reg then
        state.regs i2.dst.reg / 2 ^ 128 * 2 ^ 128 + state.regs i2.src.reg % 2 ^ 64 * 2 ^ 64 +
          state.regs i2.dst.reg % 2 ^ 64
      else state.regs r := by
  have hreg : ({ i2.dst.reg with rt := LL_RT_XMM } : LLReg) = i2.dst.reg := by
    rw [← hx]
  have h4 : (16 : Int).toNat * 8 / 32 = 4 := by decide
  unfold ll_instruction_movhps
  simp only [hd2, hs2, if_true, LLState.access, LLState.ll_operand_store,
    LLState.ll_operand_load, OperandDataType.shape, hreg, h4, Value.ofBits_32_4,
    CreateShuffleVector, List.map, List.cons_append, List.nil_append, List.getD_cons_succ,
    List.getD_cons_zero]
  by_cases hr : r = i2.dst.reg
  · simp only [hr, if_true, setRegister, Value.bits_32_4, Value.width_32_4]
    omega
  · simp only [hr, if_false]

/-- Moving the high half of `R1` into the low half of `R2` and then the low half of `R2`
into the high half of `R1`, over the register file. -/
theorem movlp_then_movhps_regs (i1 i2 : LLInstr) (state : LLState)
    (hd1 : i1.dst.type = LL_OP_REG) (hs1 : i1.src.type = LL_OP_REG)
    (hd2 : i2.dst.type = LL_OP_REG) (hs2 : i2.src.type = LL_OP_REG)
    (hR1 : i2.dst.reg = i1.src.reg) (hR2 : i2.src.reg = i1.dst.reg)
    (hx : i1.src.reg.rt = LL_RT_XMM) (hne : i1.src.reg ≠ i1.dst.reg) :
    (ll_instruction_movhps LLState.access i2
        (ll_instruction_movlp LLState.access i1 state).2).2.regs i1.src.reg =
      state.regs i1.src.reg ∧
    (ll_instruction_movhps LLState.access i2
        (ll_instruction_movlp LLState.access i1 state).2).2.regs i1.dst.reg =
      state.regs i1.dst.reg / 2 ^ 64 * 2 ^ 64 + state.regs i1.src.reg / 2 ^ 64 % 2 ^ 64 := by
  have hx2 : i2.dst.reg.rt = LL_RT_XMM := by rw [hR1]; exact hx
  constructor
  · rw [movhps_reg_reg_regs i2 _ hd2 hs2 hx2, movlp_reg_reg_regs i1 _ hd1 hs1,
      movlp_reg_reg_regs i1 _ hd1 hs1, hR1, hR2]
    simp only [hne, if_true, if_false]
    omega
  · rw [movhps_reg_reg_regs i2 _ hd2 hs2 hx2, hR1, if_neg (Ne.symm hne),
      movlp_reg_reg_regs i1 _ hd1 hs1, if_pos rfl]

/-- C12 as stated fails: with `R1 = xmm1` and `R2 = xmm0` on the sample state, after
`movlps xmm0, xmm1` and then `movhps xmm1, xmm0` the low 64 bits of `xmm0` are not the
ones it held at the start. -/
theorem movlp_movhps_round_trip_counterexample :
    ¬ ((ll_instruction_movhps LLState.access movhpsRegReg
          (ll_instruction_movlp LLState.access movlpsRegReg sampleState).2).2.regs
          { rt := LL_RT_XMM, ri := 0 } % 2 ^ 64 =
        sampleState.regs { rt := LL_RT_XMM, ri := 0 } % 2 ^ 64) := by
  have key := (movlp_then_movhps_regs movlpsRegReg movhpsRegReg sampleState rfl rfl rfl rfl
    rfl rfl rfl (by decide)).2
  have hreg : movlpsRegReg.dst.reg = { rt := LL_RT_XMM, ri := 0 } := rfl
  have hsrc : movlpsRegReg.src.reg = { rt := LL_RT_XMM, ri := 1 } := rfl
  rw [hreg, hsrc] at key
  rw [key]
  decide

/-- C12, amended: for distinct 128-bit registers `R1` (source of the first move,
destination of the second) and `R2`, after the register-to-register `ll_instruction_movlp`
with `dst = R2`, `src = R1` followed by the register-destination `ll_instruction_movhps`
with `dst = R1`, `src = R2`, over the register file of the specification, `R1` holds its
original value, the low 64 bits of `R2` are the original high 64 bits of `R1`, and the
bits of `R2` from 64 up are the original ones. -/
theorem movlp_movhps_round_trip (i1 i2 : LLInstr) (state : LLState)
    (hd1 : i1.dst.type = LL_OP_REG) (hs1 : i1.src.type = LL_OP_REG)
    (hd2 : i2.dst.type = LL_OP_REG) (hs2 : i2.src.type = LL_OP_REG)
    (hR1 : i2.dst.reg = i1.src.reg) (hR2 : i2.src.reg = i1.dst.reg)
    (hx : i1.src.reg.rt = LL_RT_XMM) (hne : i1.src.reg ≠ i1.dst.reg) :
    (ll_instruction_movhps LLState.access i2
        (ll_instruction_movlp LLState.access i1 state).2).2.regs i1.src.reg =
      state.regs i1.src.reg ∧
    (ll_instruction_movhps LLState.access i2
        (ll_instruction_movlp LLState.access i1 state).2).2.regs i1.dst.reg % 2 ^ 64 =
      state.regs i1.src.reg / 2 ^ 64 % 2 ^ 64 ∧
    (ll_instruction_movhps LLState.access i2
        (ll_instruction_movlp LLState.access i1 state).2).2.regs i1.dst.reg / 2 ^ 64 =
      state.regs i1.dst.reg / 2 ^ 64 := by
  obtain ⟨h1, h2⟩ := movlp_then_movhps_regs i1 i2 state hd1 hs1 hd2 hs2 hR1 hR2 hx hne
  refine ⟨h1, ?_, ?_⟩
  · rw [h2]; omega
  · rw [h2]; omega

/-- Witness for the amended C12: `movlps xmm0, xmm1` then `movhps xmm1, xmm0` on the
sample state. -/
theorem movlp_movhps_round_trip_witness :
    movlpsRegReg.dst.type = LL_OP_REG ∧ movlpsRegReg.src.type = LL_OP_REG ∧
    movhpsRegReg.dst.type = LL_OP_REG ∧ movhpsRegReg.src.type = LL_OP_REG ∧
    movhpsRegReg.dst.reg = movlpsRegReg.src.reg ∧
    movhpsRegReg.src.reg = movlpsRegReg.dst.reg ∧
    movlpsRegReg.src.reg.rt = LL_RT_XMM ∧ movlpsRegReg.src.reg ≠ movlpsRegReg.dst.reg ∧
    (ll_instruction_movhps LLState.access movhpsRegReg
        (ll_instruction_movlp LLState.access movlpsRegReg sampleState).2).2.regs
        movlpsRegReg.src.reg = sampleState.regs movlpsRegReg.src.reg :=
  ⟨rfl, rfl, rfl, rfl, rfl, rfl, rfl, by decide,
    (movlp_movhps_round_trip movlpsRegReg movhpsRegReg sampleState rfl rfl rfl rfl rfl rfl
      rfl (by decide)).1⟩

/-- C19: when the destination loads as the lanes `D = [d0, d1, d2, d3]` and the source as
`S = [s0, s1, s2, s3]`, the register-to-register form of `ll_instruction_movlp` stores
`[s2, s3, d2, d3]` to the destination, the register-destination form of
`ll_instruction_movhps` stores `[d0, d1, s0, s1]`, and the other form of
`ll_instruction_movhps` stores `[s2, s3]`. -/
theorem movlp_movhps_lanes {σ : Type} (A : OperandAccess σ) (instr : LLInstr) (state : σ)
    (w d0 d1 d2 d3 s0 s1 s2 s3 : Nat) :
    (instr.dst.type = LL_OP_REG ∧ instr.src.type = LL_OP_REG →
      A.ll_operand_load OP_V4F32 ALIGN_MAXIMUM instr.dst state = ⟨w, [d0, d1, d2, d3]⟩ →
      A.ll_operand_load OP_V4F32 ALIGN_MAXIMUM instr.src state = ⟨w, [s0, s1, s2, s3]⟩ →
      ll_instruction_movlp A instr state =
        (instr, A.ll_operand_store OP_VF32 ALIGN_MAXIMUM instr.dst REG_KEEP_UPPER
          ⟨w, [s2, s3, d2, d3]⟩ state)) ∧
    (instr.dst.type = LL_OP_REG →
      A.ll_operand_load OP_VF32 ALIGN_MAXIMUM
        { instr.dst with size := 16, reg := { instr.dst.reg with rt := LL_RT_XMM } } state =
          ⟨w, [d0, d1, d2, d3]⟩ →
      A.ll_operand_load OP_VF32 ALIGN_1 { instr.src with size := 16 } state =
          ⟨w, [s0, s1, s2, s3]⟩ →
      (ll_instruction_movhps A instr state).2 =
        A.ll_operand_store OP_VF32 ALIGN_MAXIMUM
          { instr.dst with size := 16, reg := { instr.dst.reg with rt := LL_RT_XMM } }
          REG_KEEP_UPPER ⟨w, [d0, d1, s0, s1]⟩ state) ∧
    (instr.dst.type ≠ LL_OP_REG →
      A.ll_operand_load OP_VF32 ALIGN_MAXIMUM instr.src state = ⟨w, [s0, s1, s2, s3]⟩ →
      (ll_instruction_movhps A instr state).2 =
        A.ll_operand_store OP_VF32 ALIGN_MAXIMUM { instr.dst with size := 8 }
          REG_KEEP_UPPER ⟨w, [s2, s3]⟩ state) := by
  refine ⟨?_, ?_, ?_⟩
  · intro h hD hS
    unfold ll_instruction_movlp
    simp [h, hD, hS, CreateShuffleVector]
  · intro h hD hS
    unfold ll_instruction_movhps
    simp only [h] at hD ⊢
    simp [hD, hS, CreateShuffleVector]
  · intro h hS
    unfold ll_instruction_movhps
    simp [h, hS, CreateShuffleVector, LLVMGetUndef]

/-- Witness for C19: `movlps xmm0, xmm1` on the sample state stores `[7, 8, 3, 4]`. -/
theorem movlp_movhps_lanes_witness :
    (movlpsRegReg.dst.type = LL_OP_REG ∧ movlpsRegReg.src.type = LL_OP_REG) ∧
    LLState.access.ll_operand_load OP_V4F32 ALIGN_MAXIMUM movlpsRegReg.dst sampleState =
      ⟨32, [1, 2, 3, 4]⟩ ∧
    LLState.access.ll_operand_load OP_V4F32 ALIGN_MAXIMUM movlpsRegReg.src sampleState =
      ⟨32, [5, 6, 7, 8]⟩ ∧
    ll_instruction_movlp LLState.access movlpsRegReg sampleState =
      (movlpsRegReg,
        LLState.access.ll_operand_store OP_VF32 ALIGN_MAXIMUM movlpsRegReg.dst REG_KEEP_UPPER
          ⟨32, [7, 8, 3, 4]⟩ sampleState) :=
  ⟨⟨rfl, rfl⟩, by decide, by decide,
    (movlp_movhps_lanes LLState.access movlpsRegReg sampleState 32 1 2 3 4 5 6 7 8).1
      ⟨rfl, rfl⟩ (by decide) (by decide)⟩

/-- C20, on the code: with a destination that is not a register, `ll_instruction_movhps`
sets the size of the destination descriptor to 8 and stores lanes 2 and 3 of the source
to it, whereas `ll_instruction_movhpd` sets the size of the destination descriptor to 16,
not 8, and stores lane 1 of the source to that descriptor. -/
theorem movh_memory_store {σ : Type} (A : OperandAccess σ) (instr : LLInstr) (state : σ)
    (hdst : instr.dst.type ≠ LL_OP_REG) :
    ll_instruction_movhps A instr state =
      ({ instr with dst := { instr.dst with size := 8 } },
        A.ll_operand_store OP_VF32 ALIGN_MAXIMUM { instr.dst with size := 8 } REG_KEEP_UPPER
          (CreateShuffleVector (A.ll_operand_load OP_VF32 ALIGN_MAXIMUM instr.src state)
            (LLVMGetUndef (A.ll_operand_load OP_VF32 ALIGN_MAXIMUM instr.src state)) [2, 3])
          state) ∧
    ll_instruction_movhpd A instr state =
      ({ instr with dst := { instr.dst with size := 16 } },
        A.ll_operand_store OP_SF64 ALIGN_MAXIMUM { instr.dst with size := 16 } REG_KEEP_UPPER
          (CreateExtractElement (A.ll_operand_load OP_VF64 ALIGN_MAXIMUM instr.src state) 1)
          state) ∧
    (ll_instruction_movhps A instr state).1.dst.size = 8 ∧
    (ll_instruction_movhpd A instr state).1.dst.size = 16 := by
  refine ⟨?_, ?_, ?_, ?_⟩
  · unfold ll_instruction_movhps
    simp [hdst]
  · unfold ll_instruction_movhpd
    simp [hdst]
  · unfold ll_instruction_movhps
    simp [hdst]
  · unfold ll_instruction_movhpd
    simp [hdst]

/-- Witness for C20: `movhpd [rax], xmm1`, whose decoded destination has size 8, reaches
the store with a destination descriptor of size 16. -/
theorem movh_memory_store_witness :
    movhpdToMemory.dst.type ≠ LL_OP_REG ∧ movhpdToMemory.dst.size = 8 ∧
    (ll_instruction_movhpd LLState.access movhpdToMemory sampleState).1.dst.size = 16 :=
  ⟨by decide, rfl,
    (movh_memory_store LLState.access movhpdToMemory sampleState (by decide)).2.2.2⟩

/-- C17: `ll_instruction_movq`, `movs`, `movp`, `movdq`, `movlp`, `sse_binary`, `shufps`
and `insertps` return the instruction record they were given; the record returned by
`ll_instruction_unpck` differs from it at most in `src.size` and `src.reg.rt`, the one
returned by `ll_instruction_movhps` at most in `dst.size`, `dst.reg.rt` and `src.size`,
and the one returned by `ll_instruction_movhpd` at most in `dst.size` and `dst.reg.rt`.
`ll_instruction_unpck` returns a record for each of the four unpack opcodes. -/
theorem lifters_frame {σ : Type} (A : OperandAccess σ) (instr : LLInstr) (state : σ)
    (cfg : σ → LLConfig) (binOp : Nat → Value → Value → Value) (fastMath : Value → Value)
    (opcode : Nat) (fast_math : Bool) (data_type op_type : OperandDataType) :
    (ll_instruction_movq A instr state).1 = instr ∧
    (ll_instruction_movs A instr state).1 = instr ∧
    (ll_instruction_movp A instr state).1 = instr ∧
    (ll_instruction_movdq A instr state).1 = instr ∧
    (ll_instruction_movlp A instr state).1 = instr ∧
    (ll_instruction_sse_binary A cfg binOp fastMath instr state opcode fast_math
      data_type).1 = instr ∧
    (ll_instruction_shufps A instr state).1 = instr ∧
    (ll_instruction_insertps A instr state).1 = instr ∧
    (∀ r, ll_instruction_unpck A instr state op_type = some r →
      r.1 = { instr with
              src := { instr.src with
                       size := r.1.src.size,
                       reg := { instr.src.reg with rt := r.1.src.reg.rt } } }) ∧
    ((instr.type = LL_INS_UNPCKLPS ∨ instr.type = LL_INS_UNPCKLPD ∨
        instr.type = LL_INS_UNPCKHPS ∨ instr.type = LL_INS_UNPCKHPD) →
      (ll_instruction_unpck A instr state op_type).isSome = true) ∧
    (ll_instruction_movhps A instr state).1 =
      { instr with
        dst := { instr.dst with
                 size := (ll_instruction_movhps A instr state).1.dst.size,
                 reg := { instr.dst.reg with
                          rt := (ll_instruction_movhps A instr state).1.dst.reg.rt } },
        src := { instr.src with size := (ll_instruction_movhps A instr state).1.src.size } } ∧
    (ll_instruction_movhpd A instr state).1 =
      { instr with
        dst := { instr.dst with
                 size := (ll_instruction_movhpd A instr state).1.dst.size,
                 reg := { instr.dst.reg with
                          rt := (ll_instruction_movhpd A instr state).1.dst.reg.rt } } } := by
  refine ⟨?_, ?_, ?_, ?_, ?_, ?_, ?_, ?_, ?_, ?_, ?_, ?_⟩
  · unfold ll_instruction_movq
    by_cases h : instr.dst.type = LL_OP_REG ∧ regIsV instr.dst.reg = true <;> simp [h]
  · unfold ll_instruction_movs
    by_cases h : instr.src.type = LL_OP_MEM <;> simp [h]
  · rfl
  · rfl
  · unfold ll_instruction_movlp
    by_cases h : instr.dst.type = LL_OP_REG ∧ instr.src.type = LL_OP_REG <;> simp [h]
  · rfl
  · rfl
  · rfl
  · intro r hr
    unfold ll_instruction_unpck at hr
    simp only at hr
    split at hr
    · exact absurd hr (by simp)
    · simp only [Option.some.injEq] at hr
      subst hr
      by_cases h : instr.src.type = LL_OP_REG <;> simp [h]
  · intro h
    unfold ll_instruction_unpck
    rcases h with h | h | h | h <;>
      by_cases hs : instr.src.type = LL_OP_REG <;>
      simp [h, hs, ll_instruction_unpck.result]
  · unfold ll_instruction_movhps
    by_cases h : instr.dst.type = LL_OP_REG <;> simp [h]
  · unfold ll_instruction_movhpd
    by_cases h : instr.dst.type = LL_OP_REG <;> simp [h]

/-! ## Overflow and signed comparison -/

/-- The overflow flag that `FlagCalcOAdd` writes for the wrapped sum, under either
configuration. -/
theorem FlagCalcOAdd_flag (self : LifterBase) (b : Bool) {N lhs rhs : Nat} (hw : 0 < N)
    (hl : lhs < 2 ^ N) (hr : rhs < 2 ^ N) :
    ((self.withIntrinsics b).FlagCalcOAdd N ((lhs + rhs) % 2 ^ N) lhs rhs).GetFlag RFLAG_OF =
      (sadd_with_overflow N lhs rhs).2 := by
  have key := addOverflow_agree hw hl hr
  simp only [CreateExtractValue1] at key
  cases b <;>
    simp only [LifterBase.FlagCalcOAdd, LifterBase.withIntrinsics, LifterBase.SetFlag,
      LifterBase.GetFlag, CreateExtractValue1, if_true, Bool.false_eq_true, if_false]
  rw [key]

/-- The overflow flag that `FlagCalcOSub` writes for the wrapped difference, under either
configuration. -/
theorem FlagCalcOSub_flag (self : LifterBase) (b : Bool) {N lhs rhs : Nat} (hw : 0 < N)
    (hl : lhs < 2 ^ N) (hr : rhs < 2 ^ N) :
    ((self.withIntrinsics b).FlagCalcOSub N ((lhs + (2 ^ N - rhs)) % 2 ^ N) lhs
        rhs).GetFlag RFLAG_OF = (ssub_with_overflow N lhs rhs).2 := by
  have key := subOverflow_agree hw hl hr
  simp only [CreateExtractValue1] at key
  cases b <;>
    simp only [LifterBase.FlagCalcOSub, LifterBase.withIntrinsics, LifterBase.SetFlag,
      LifterBase.GetFlag, CreateExtractValue1, if_true, Bool.false_eq_true, if_false]
  rw [key]

/-- C15: for every width N in {8, 16, 32, 64} and all N-bit `lhs`, `rhs` with
`res = (lhs + rhs) mod 2^N`, the overflow flag written by `FlagCalcOAdd` under either
configuration is true exactly when the sum of the signed readings lies outside
`[-2^(N-1), 2^(N-1) - 1]`.  For N = 32 it is set for `0x7FFFFFFF + 1` and clear for
`0xFFFFFFFF + 1`, and for `0xFFFFFFFF + 1`, whose result is 0, `FlagCalcA` sets the
auxiliary-carry flag and `FlagCalcP` sets the parity flag. -/
theorem FlagCalcOAdd_signed_overflow (self : LifterBase) (b : Bool) (N lhs rhs : Nat)
    (hN : N = 8 ∨ N = 16 ∨ N = 32 ∨ N = 64) (hl : lhs < 2 ^ N) (hr : rhs < 2 ^ N) :
    (((self.withIntrinsics b).FlagCalcOAdd N ((lhs + rhs) % 2 ^ N) lhs rhs).GetFlag RFLAG_OF =
        true ↔
      (toSigned N lhs + toSigned N rhs < -(2 ^ (N - 1) : Int) ∨
        (2 ^ (N - 1) : Int) ≤ toSigned N lhs + toSigned N rhs)) ∧
    ((self.withIntrinsics b).FlagCalcOAdd 32 ((0x7FFFFFFF + 1) % 2 ^ 32) 0x7FFFFFFF
        1).GetFlag RFLAG_OF = true ∧
    ((self.withIntrinsics b).FlagCalcOAdd 32 ((0xFFFFFFFF + 1) % 2 ^ 32) 0xFFFFFFFF
        1).GetFlag RFLAG_OF = false ∧
    (0xFFFFFFFF + 1) % 2 ^ 32 = 0 ∧
    (self.FlagCalcA ((0xFFFFFFFF + 1) % 2 ^ 32) 0xFFFFFFFF 1).GetFlag RFLAG_AF = true ∧
    (self.FlagCalcP ((0xFFFFFFFF + 1) % 2 ^ 32)).GetFlag RFLAG_PF = true := by
  have hw : 0 < N := by omega
  refine ⟨?_, ?_, ?_, by decide, ?_, ?_⟩
  · rw [FlagCalcOAdd_flag self b hw hl hr]
    simp only [sadd_with_overflow, decide_eq_true_eq]
  · rw [FlagCalcOAdd_flag self b (by decide) (by decide) (by decide)]
    decide
  · rw [FlagCalcOAdd_flag self b (by decide) (by decide) (by decide)]
    decide
  · simp only [LifterBase.FlagCalcA, LifterBase.SetFlag, LifterBase.GetFlag, CreateXor,
      CreateAnd, CreateICmpNE]
    decide
  · simp only [LifterBase.FlagCalcP, LifterBase.SetFlag, LifterBase.GetFlag,
      CreateTruncOrBitCast, CreateTruncOrBitCast1, CreateNot1, ctpop]
    decide

/-- Witness for C15 at N = 8, `0x7F + 0x7F`, with the bit trick. -/
theorem FlagCalcOAdd_signed_overflow_witness :
    (8 = 8 ∨ 8 = 16 ∨ 8 = 32 ∨ 8 = 64) ∧ 0x7F < 2 ^ 8 ∧ 0x7F < 2 ^ 8 ∧
    (((LifterBase.clear.withIntrinsics false).FlagCalcOAdd 8 ((0x7F + 0x7F) % 2 ^ 8) 0x7F
        0x7F).GetFlag RFLAG_OF = true ↔
      (toSigned 8 0x7F + toSigned 8 0x7F < -(2 ^ (8 - 1) : Int) ∨
        (2 ^ (8 - 1) : Int) ≤ toSigned 8 0x7F + toSigned 8 0x7F)) :=
  ⟨by decide, by decide, by decide,
    (FlagCalcOAdd_signed_overflow LifterBase.clear false 8 0x7F 0x7F (by decide) (by decide)
      (by decide)).1⟩

/-- The wrapped difference is zero exactly when the operands are equal. -/
theorem wrapped_sub_eq_zero {N lhs rhs : Nat} (hl : lhs < 2 ^ N) (hr : rhs < 2 ^ N) :
    (lhs + (2 ^ N - rhs)) % 2 ^ N = 0 ↔ lhs = rhs := by
  constructor
  · intro h
    by_cases hle : rhs ≤ lhs
    · have e : lhs + (2 ^ N - rhs) = (lhs - rhs) + 2 ^ N := by omega
      rw [e, Nat.add_mod_right, Nat.mod_eq_of_lt (by omega)] at h
      omega
    · rw [Nat.mod_eq_of_lt (by omega)] at h
      omega
  · rintro rfl
    have e : lhs + (2 ^ N - lhs) = 2 ^ N := by omega
    rw [e, Nat.mod_self]

/-- The signed readings of two `N`-bit patterns are equal only for equal patterns. -/
theorem toSigned_inj {N a b : Nat} (hw : 0 < N) (ha : a < 2 ^ N) (hb : b < 2 ^ N)
    (h : toSigned N a = toSigned N b) : a = b := by
  have h2 := two_pow_pred_double hw
  rcases toSigned_cases hw ha with ⟨a1, ea⟩ | ⟨a1, ea⟩ <;>
  rcases toSigned_cases hw hb with ⟨b1, eb⟩ | ⟨b1, eb⟩ <;>
  · rw [ea, eb] at h
    omega

/-- C16: let `res = (lhs - rhs) mod 2^N` for N-bit `lhs`, `rhs`, N in {8, 16, 32, 64}.
If the sign flag holds the sign bit of `res` and the zero flag holds `res = 0`, then
after `FlagCalcOSub` (under the configuration of the lifter, whichever it is) `FlagCond`
of `Less` is `lhs < rhs` and `FlagCond` of `LessOrEqual` is `lhs <= rhs`, both under the
signed reading. -/
theorem FlagCond_signed_compare (self : LifterBase) (N lhs rhs : Nat)
    (hN : N = 8 ∨ N = 16 ∨ N = 32 ∨ N = 64) (hl : lhs < 2 ^ N) (hr : rhs < 2 ^ N)
    (hsf : self.GetFlag RFLAG_SF = ((lhs + (2 ^ N - rhs)) % 2 ^ N).testBit (N - 1))
    (hzf : self.GetFlag RFLAG_ZF = decide ((lhs + (2 ^ N - rhs)) % 2 ^ N = 0)) :
    (self.FlagCalcOSub N ((lhs + (2 ^ N - rhs)) % 2 ^ N) lhs rhs).FlagCond Condition.L =
        some (decide (toSigned N lhs < toSigned N rhs)) ∧
    (self.FlagCalcOSub N ((lhs + (2 ^ N - rhs)) % 2 ^ N) lhs rhs).FlagCond Condition.LE =
        some (decide (toSigned N lhs ≤ toSigned N rhs)) := by
  have hw : 0 < N := by omega
  have hres : (lhs + (2 ^ N - rhs)) % 2 ^ N < 2 ^ N :=
    Nat.mod_lt _ (Nat.pos_pow_of_pos _ (by decide))
  have key := subOverflow_agree hw hl hr
  have hsign := CreateICmpSLT_zero hw hres
  have hz := wrapped_sub_eq_zero hl hr
  simp only [CreateExtractValue1, CreateICmpNE1] at key
  simp only [LifterBase.GetFlag] at hsf hzf
  have hof : (self.FlagCalcOSub N ((lhs + (2 ^ N - rhs)) % 2 ^ N) lhs rhs).regfile.of =
      (self.regfile.sf != CreateICmpSLT N lhs rhs) := by
    rw [hsf, ← hsign]
    by_cases hc : self.cfg.enableOverflowIntrinsics = true
    · simp only [LifterBase.FlagCalcOSub, hc, if_true, LifterBase.SetFlag,
        CreateExtractValue1, key]
    · simp only [LifterBase.FlagCalcOSub, hc, if_false, LifterBase.SetFlag,
        CreateICmpNE1, Bool.false_eq_true]
  have hsf' : (self.FlagCalcOSub N ((lhs + (2 ^ N - rhs)) % 2 ^ N) lhs rhs).regfile.sf =
      self.regfile.sf := by
    by_cases hc : self.cfg.enableOverflowIntrinsics = true <;>
      simp only [LifterBase.FlagCalcOSub, hc, if_true, if_false, LifterBase.SetFlag,
        Bool.false_eq_true]
  have hzf' : (self.FlagCalcOSub N ((lhs + (2 ^ N - rhs)) % 2 ^ N) lhs rhs).regfile.zf =
      self.regfile.zf := by
    by_cases hc : self.cfg.enableOverflowIntrinsics = true <;>
      simp only [LifterBase.FlagCalcOSub, hc, if_true, if_false, LifterBase.SetFlag,
        Bool.false_eq_true]
  have hL : ∀ s : LifterBase, s.FlagCond Condition.L = some (s.regfile.sf != s.regfile.of) :=
    fun _ => rfl
  have hLE : ∀ s : LifterBase, s.FlagCond Condition.LE =
      some (s.regfile.zf || (s.regfile.sf != s.regfile.of)) := fun _ => rfl
  rw [hL, hLE, hof, hsf', hzf', hzf]
  have hlt : (self.regfile.sf != (self.regfile.sf != CreateICmpSLT N lhs rhs)) =
      decide (toSigned N lhs < toSigned N rhs) := by
    unfold CreateICmpSLT
    cases self.regfile.sf <;> cases decide (toSigned N lhs < toSigned N rhs) <;> rfl
  rw [hlt]
  refine ⟨rfl, ?_⟩
  congr 1
  by_cases heq : lhs = rhs
  · subst heq
    simp [hz.2 rfl]
  · have hne : toSigned N lhs ≠ toSigned N rhs := fun h => heq (toSigned_inj hw hl hr h)
    have hnz : ¬ (lhs + (2 ^ N - rhs)) % 2 ^ N = 0 := fun h => heq (hz.1 h)
    simp only [hnz, decide_False, Bool.false_or, decide_eq_decide]
    omega

/-- Witness for C16: the 8-bit subtraction `1 - 2`, whose result `0xff` is negative and
not zero. -/
theorem FlagCond_signed_compare_witness :
    (8 = 8 ∨ 8 = 16 ∨ 8 = 32 ∨ 8 = 64) ∧ 1 < 2 ^ 8 ∧ 2 < 2 ^ 8 ∧
    LifterBase.afterSub.GetFlag RFLAG_SF = ((1 + (2 ^ 8 - 2)) % 2 ^ 8).testBit (8 - 1) ∧
    LifterBase.afterSub.GetFlag RFLAG_ZF = decide ((1 + (2 ^ 8 - 2)) % 2 ^ 8 = 0) ∧
    (LifterBase.afterSub.FlagCalcOSub 8 ((1 + (2 ^ 8 - 2)) % 2 ^ 8) 1 2).FlagCond
        Condition.L = some (decide (toSigned 8 1 < toSigned 8 2)) :=
  ⟨by decide, by decide, by decide, by decide, by decide,
    (FlagCond_signed_compare LifterBase.afterSub 8 1 2 (by decide) (by decide) (by decide)
      (by decide) (by decide)).1⟩

/-- C18 as stated fails: for the 8-bit triple `res = 0x80`, `lhs = 0`, `rhs = 0`, in
which `res` is not the sum, `FlagCalcOAdd` writes a clear overflow flag with the
intrinsics and a set one without. -/
theorem FlagCalcOAdd_any_triple_counterexample :
    ¬ (((LifterBase.clear.withIntrinsics true).FlagCalcOAdd 8 0x80 0 0).GetFlag RFLAG_OF =
        ((LifterBase.clear.withIntrinsics false).FlagCalcOAdd 8 0x80 0 0).GetFlag RFLAG_OF) := by
  decide

/-- C18, amended: for every width N in {8, 16, 32, 64} and all N-bit `lhs`, `rhs`,
`FlagCalcOAdd` called with the wrapped sum and `FlagCalcOSub` called with the wrapped
difference write the same overflow flag with the intrinsics toggle on as with it off. -/
theorem FlagCalcO_strategies_agree (self : LifterBase) (N lhs rhs : Nat)
    (hN : N = 8 ∨ N = 16 ∨ N = 32 ∨ N = 64) (hl : lhs < 2 ^ N) (hr : rhs < 2 ^ N) :
    ((self.withIntrinsics true).FlagCalcOAdd N ((lhs + rhs) % 2 ^ N) lhs rhs).GetFlag RFLAG_OF =
      ((self.withIntrinsics false).FlagCalcOAdd N ((lhs + rhs) % 2 ^ N) lhs
        rhs).GetFlag RFLAG_OF ∧
    ((self.withIntrinsics true).FlagCalcOSub N ((lhs + (2 ^ N - rhs)) % 2 ^ N) lhs
        rhs).GetFlag RFLAG_OF =
      ((self.withIntrinsics false).FlagCalcOSub N ((lhs + (2 ^ N - rhs)) % 2 ^ N) lhs
        rhs).GetFlag RFLAG_OF := by
  have hw : 0 < N := by omega
  exact ⟨by rw [FlagCalcOAdd_flag self true hw hl hr, FlagCalcOAdd_flag self false hw hl hr],
    by rw [FlagCalcOSub_flag self true hw hl hr, FlagCalcOSub_flag self false hw hl hr]⟩

/-- Witness for the amended C18 at N = 16, operands `0x8000` and `1`. -/
theorem FlagCalcO_strategies_agree_witness :
    (16 = 8 ∨ 16 = 16 ∨ 16 = 32 ∨ 16 = 64) ∧ 0x8000 < 2 ^ 16 ∧ 1 < 2 ^ 16 ∧
    ((LifterBase.clear.withIntrinsics true).FlagCalcOSub 16
        ((0x8000 + (2 ^ 16 - 1)) % 2 ^ 16) 0x8000 1).GetFlag RFLAG_OF =
      ((LifterBase.clear.withIntrinsics false).FlagCalcOSub 16
        ((0x8000 + (2 ^ 16 - 1)) % 2 ^ 16) 0x8000 1).GetFlag RFLAG_OF :=
  ⟨by decide, by decide, by decide,
    (FlagCalcO_strategies_agree LifterBase.clear 16 0x8000 1 (by decide) (by decide)
      (by decide)).2⟩

/-! ## Subtraction -/

/-- Bit 4 of `lhs xor rhs xor (lhs - rhs)` is the borrow into the low nibble. -/
theorem testBit4_sub {N lhs rhs : Nat} (hN : 4 < N) (hl : lhs < 2 ^ N) (hr : rhs < 2 ^ N) :
    (lhs ^^^ rhs ^^^ ((lhs + (2 ^ N - rhs)) % 2 ^ N)).testBit 4 =
      decide (lhs % 16 < rhs % 16) := by
  obtain ⟨k, hk⟩ : ∃ k, 2 ^ N = 32 * k := by
    refine ⟨2 ^ (N - 5), ?_⟩
    have e : N = 5 + (N - 5) := by omega
    conv_lhs => rw [e, pow_add]
    norm_num
  have hmod : (rhs ≤ lhs ∧ (lhs + (2 ^ N - rhs)) % 2 ^ N = lhs - rhs) ∨
      (lhs < rhs ∧ (lhs + (2 ^ N - rhs)) % 2 ^ N = lhs + 2 ^ N - rhs) := by
    by_cases h : rhs ≤ lhs
    · left
      refine ⟨h, ?_⟩
      rw [Nat.mod_eq_sub_mod (by omega)]
      have e : lhs + (2 ^ N - rhs) - 2 ^ N = lhs - rhs := by omega
      rw [e]
      exact Nat.mod_eq_of_lt (by omega)
    · right
      refine ⟨by omega, ?_⟩
      have e : lhs + (2 ^ N - rhs) = lhs + 2 ^ N - rhs := by omega
      rw [e]
      exact Nat.mod_eq_of_lt (by omega)
  generalize (lhs + (2 ^ N - rhs)) % 2 ^ N = res at hmod ⊢
  rw [hk] at hl hr hmod
  rw [Nat.testBit_xor, Nat.testBit_xor]
  simp only [Nat.testBit_to_div_mod]
  have e : (2 : Nat) ^ 4 = 16 := by norm_num
  rw [e]
  have h1 : lhs / 16 % 2 = 0 ∨ lhs / 16 % 2 = 1 := by omega
  have h2 : rhs / 16 % 2 = 0 ∨ rhs / 16 % 2 = 1 := by omega
  have h3 : res / 16 % 2 = 0 ∨ res / 16 % 2 = 1 := by omega
  rcases h1 with h1 | h1 <;> rcases h2 with h2 | h2 <;> rcases h3 with h3 | h3 <;>
    simp [h1, h2, h3] <;> omega

/-- C21: for every width N in {8, 16, 32, 64} and all N-bit `lhs`, `rhs` with
`res = (lhs - rhs) mod 2^N`, the overflow flag written by `FlagCalcOSub` under either
configuration is true exactly when the difference of the signed readings lies outside
`[-2^(N-1), 2^(N-1) - 1]`. -/
theorem FlagCalcOSub_signed_overflow (self : LifterBase) (b : Bool) (N lhs rhs : Nat)
    (hN : N = 8 ∨ N = 16 ∨ N = 32 ∨ N = 64) (hl : lhs < 2 ^ N) (hr : rhs < 2 ^ N) :
    ((self.withIntrinsics b).FlagCalcOSub N ((lhs + (2 ^ N - rhs)) % 2 ^ N) lhs
        rhs).GetFlag RFLAG_OF = true ↔
      (toSigned N lhs - toSigned N rhs < -(2 ^ (N - 1) : Int) ∨
        (2 ^ (N - 1) : Int) ≤ toSigned N lhs - toSigned N rhs) := by
  have hw : 0 < N := by omega
  rw [FlagCalcOSub_flag self b hw hl hr]
  simp only [ssub_with_overflow, decide_eq_true_eq]

/-- Witness for C21 at N = 8, `0x80 - 1` (that is, -128 - 1), with the comparison trick. -/
theorem FlagCalcOSub_signed_overflow_witness :
    (8 = 8 ∨ 8 = 16 ∨ 8 = 32 ∨ 8 = 64) ∧ 0x80 < 2 ^ 8 ∧ 1 < 2 ^ 8 ∧
    (((LifterBase.clear.withIntrinsics false).FlagCalcOSub 8 ((0x80 + (2 ^ 8 - 1)) % 2 ^ 8)
        0x80 1).GetFlag RFLAG_OF = true ↔
      (toSigned 8 0x80 - toSigned 8 1 < -(2 ^ (8 - 1) : Int) ∨
        (2 ^ (8 - 1) : Int) ≤ toSigned 8 0x80 - toSigned 8 1)) :=
  ⟨by decide, by decide, by decide,
    FlagCalcOSub_signed_overflow LifterBase.clear false 8 0x80 1 (by decide) (by decide)
      (by decide)⟩

/-- C22: for every width N in {8, 16, 32, 64} and all N-bit `lhs`, `rhs` with
`res = (lhs - rhs) mod 2^N`, `FlagCalcA` sets the auxiliary-carry flag to bit 4 of
`lhs xor rhs xor res`, and the flag is set exactly when the subtraction borrows into the
low nibble, `(lhs mod 16) < (rhs mod 16)`. -/
theorem FlagCalcA_sub (self : LifterBase) (N lhs rhs : Nat)
    (hN : N = 8 ∨ N = 16 ∨ N = 32 ∨ N = 64) (hl : lhs < 2 ^ N) (hr : rhs < 2 ^ N) :
    (self.FlagCalcA ((lhs + (2 ^ N - rhs)) % 2 ^ N) lhs rhs).GetFlag RFLAG_AF =
        ((lhs ^^^ rhs) ^^^ ((lhs + (2 ^ N - rhs)) % 2 ^ N)).testBit 4 ∧
    ((self.FlagCalcA ((lhs + (2 ^ N - rhs)) % 2 ^ N) lhs rhs).GetFlag RFLAG_AF = true ↔
        lhs % 16 < rhs % 16) := by
  have h4 : 4 < N := width_pos hN
  have hflag : (self.FlagCalcA ((lhs + (2 ^ N - rhs)) % 2 ^ N) lhs rhs).GetFlag RFLAG_AF =
      ((lhs ^^^ rhs) ^^^ ((lhs + (2 ^ N - rhs)) % 2 ^ N)).testBit 4 := by
    simp only [LifterBase.FlagCalcA, LifterBase.SetFlag, LifterBase.GetFlag, CreateXor,
      CreateAnd, CreateICmpNE]
    exact and_16_ne_zero _
  refine ⟨hflag, ?_⟩
  rw [hflag, testBit4_sub h4 hl hr, decide_eq_true_iff]

/-- Witness for C22 at N = 8, `0x10 - 0x01`, which borrows into the low nibble. -/
theorem FlagCalcA_sub_witness :
    (8 = 8 ∨ 8 = 16 ∨ 8 = 32 ∨ 8 = 64) ∧ 0x10 < 2 ^ 8 ∧ 0x01 < 2 ^ 8 ∧
    ((LifterBase.clear.FlagCalcA ((0x10 + (2 ^ 8 - 0x01)) % 2 ^ 8) 0x10 0x01).GetFlag
        RFLAG_AF = true ↔ 0x10 % 16 < 0x01 % 16) :=
  ⟨by decide, by decide, by decide,
    (FlagCalcA_sub LifterBase.clear 8 0x10 0x01 (by decide) (by decide) (by decide)).2⟩

end Rellume
